import Mathlib

/-!
# foxesscloud: a shallow embedding of the client core

The Go package signs every request with an MD5 digest, dispatches on the
vendor's error envelope and unwraps three generic response shapes.  This file
embeds `client.go`, `inverter.go` and `power_station.go` as pure Lean functions
and proves the properties of the specification against them.

Conventions of the embedding:

* a Go `string` or `[]byte` is a list of bytes (`GoString`), since Go strings
  are arbitrary byte sequences;
* Go `int` and `int64` are `Int`, with the 64-bit wrap-around written out
  (`wrapInt64`) where the source does arithmetic on them;
* a pointer receiver that is mutated is passed in and returned (state passing);
* a Go `error` result is `Option GoError` (`none` is `nil`);
* collaborators outside the package (HTTP transport, `encoding/json`,
  `strconv.ParseFloat`, the error value of `time.Parse`) are explicit
  parameters; `crypto/md5`, `encoding/hex`, `strconv.FormatInt`,
  `strings.Trim`, `http.Header.Set` and the acceptance of `time.Parse` for the
  one layout in use are modelled in full.
-/

namespace Foxess

/-! ## Strings -/

/-- A Go string: an immutable sequence of bytes. -/
abbrev GoString := List UInt8

/-- The bytes of an ASCII source literal. -/
def lit (s : String) : GoString := s.toList.map (fun c => UInt8.ofNat c.toNat)

/-- Byte value of the ASCII digit zero. -/
def asciiZero : Nat := 48

/-- Byte value of the ASCII minus sign. -/
def asciiMinus : UInt8 := 45

/-- Byte value of the ASCII double quote. -/
def asciiQuote : UInt8 := 34

/-- The predicate `'0' <= c && c <= '9'`. -/
def isDigitByte (c : UInt8) : Bool := decide (48 ≤ c.toNat) && decide (c.toNat ≤ 57)

/-! ## strconv.FormatInt(i, 10) -/

/-- Decimal digits of a natural number, most significant first; `fuel` bounds
the number of digits produced. -/
def decimalDigits : Nat → Nat → GoString
  | 0, _ => []
  | fuel + 1, n =>
    if n < 10 then [UInt8.ofNat (asciiZero + n)]
    else decimalDigits fuel (n / 10) ++ [UInt8.ofNat (asciiZero + n % 10)]

/-- Base-10 text of a natural number. -/
def formatNat (n : Nat) : GoString := decimalDigits (n + 1) n

/-- The function `strconv.FormatInt(i, 10)`: a minus sign for negative values,
then the decimal digits of the magnitude. -/
def FormatInt (i : Int) : GoString :=
  if i < 0 then asciiMinus :: formatNat i.natAbs else formatNat i.natAbs

/-- Value of a string of decimal digits, `none` if a byte is not a digit. -/
def parseDigits : Nat → GoString → Option Nat
  | acc, [] => some acc
  | acc, c :: rest =>
    if isDigitByte c then parseDigits (acc * 10 + (c.toNat - asciiZero)) rest else none

/-- A decoder matching `FormatInt`: an optional minus sign followed by at
least one decimal digit. -/
def parseDecimal : GoString → Option Int
  | [] => none
  | c :: rest =>
    if c = asciiMinus then
      (if rest = [] then none else (parseDigits 0 rest).map (fun (n : Nat) => - (n : Int)))
    else (parseDigits 0 (c :: rest)).map (fun (n : Nat) => (n : Int))

/-! ## crypto/md5 (RFC 1321) and encoding/hex -/

/-- Per-round left-rotation amounts. -/
def md5Shift : List Nat :=
  [7, 12, 17, 22, 7, 12, 17, 22, 7, 12, 17, 22, 7, 12, 17, 22,
   5, 9, 14, 20, 5, 9, 14, 20, 5, 9, 14, 20, 5, 9, 14, 20,
   4, 11, 16, 23, 4, 11, 16, 23, 4, 11, 16, 23, 4, 11, 16, 23,
   6, 10, 15, 21, 6, 10, 15, 21, 6, 10, 15, 21, 6, 10, 15, 21]

/-- The additive constants `floor(2^32 * |sin(i + 1)|)`. -/
def md5Sine : List Nat :=
  [3614090360, 3905402710, 606105819, 3250441966, 4118548399, 1200080426,
   2821735955, 4249261313, 1770035416, 2336552879, 4294925233, 2304563134,
   1804603682, 4254626195, 2792965006, 1236535329, 4129170786, 3225465664,
   643717713, 3921069994, 3593408605, 38016083, 3634488961, 3889429448,
   568446438, 3275163606, 4107603335, 1163531501, 2850285829, 4243563512,
   1735328473, 2368359562, 4294588738, 2272392833, 1839030562, 4259657740,
   2763975236, 1272893353, 4139469664, 3200236656, 681279174, 3936430074,
   3572445317, 76029189, 3654602809, 3873151461, 530742520, 3299628645,
   4096336452, 1126891415, 2878612391, 4237533241, 1700485571, 2399980690,
   4293915773, 2240044497, 1873313359, 4264355552, 2734768916, 1309151649,
   4149444226, 3174756917, 718787259, 3951481745]

/-- Rotate a 32-bit word left by `c` bits. -/
def rotl32 (x c : Nat) : Nat := ((x <<< c) ||| (x >>> (32 - c))) % 4294967296

/-- The four 32-bit chaining words of MD5. -/
structure MD5State where
  a : Nat
  b : Nat
  c : Nat
  d : Nat
deriving DecidableEq, Repr

/-- One of the 64 operations of the MD5 compression function on message
words `m`. -/
def md5Step (m : List Nat) (st : MD5State) (i : Nat) : MD5State :=
  let nb := st.b ^^^ 4294967295
  let nd := st.d ^^^ 4294967295
  let f :=
    if i < 16 then (st.b &&& st.c) ||| (nb &&& st.d)
    else if i < 32 then (st.d &&& st.b) ||| (nd &&& st.c)
    else if i < 48 then st.b ^^^ st.c ^^^ st.d
    else st.c ^^^ (st.b ||| nd)
  let g :=
    if i < 16 then i
    else if i < 32 then (5 * i + 1) % 16
    else if i < 48 then (3 * i + 5) % 16
    else (7 * i) % 16
  let x := (f + st.a + md5Sine.getD i 0 + m.getD g 0) % 4294967296
  { a := st.d, d := st.c, c := st.b,
    b := (st.b + rotl32 x (md5Shift.getD i 0)) % 4294967296 }

/-- Little-endian 32-bit word at the head of a byte list. -/
def le32 (bs : List UInt8) : Nat :=
  (bs.getD 0 0).toNat + 256 * (bs.getD 1 0).toNat + 65536 * (bs.getD 2 0).toNat
    + 16777216 * (bs.getD 3 0).toNat

/-- The first `n` little-endian words of a block. -/
def md5Words : Nat → List UInt8 → List Nat
  | 0, _ => []
  | n + 1, bs => le32 bs :: md5Words n (bs.drop 4)

/-- The MD5 compression function on one 64-byte block. -/
def md5Block (st : MD5State) (block : List UInt8) : MD5State :=
  let m := md5Words 16 block
  let r := (List.range 64).foldl (md5Step m) st
  { a := (st.a + r.a) % 4294967296, b := (st.b + r.b) % 4294967296,
    c := (st.c + r.c) % 4294967296, d := (st.d + r.d) % 4294967296 }

/-- Fold the compression function over `n` consecutive 64-byte blocks. -/
def md5Blocks : Nat → MD5State → List UInt8 → MD5State
  | 0, st, _ => st
  | n + 1, st, bs => md5Blocks n (md5Block st (bs.take 64)) (bs.drop 64)

/-- The `n` low bytes of `x`, least significant first. -/
def putLE : Nat → Nat → List UInt8
  | 0, _ => []
  | n + 1, x => UInt8.ofNat (x % 256) :: putLE n (x / 256)

/-- MD5 padding: a 0x80 byte, zero bytes up to 56 modulo 64, then the bit
length as a little-endian 64-bit integer. -/
def md5Pad (msg : List UInt8) : List UInt8 :=
  msg ++ [128] ++ List.replicate ((119 - msg.length % 64) % 64) 0
    ++ putLE 8 ((msg.length * 8) % 18446744073709551616)

/-- The MD5 initial chaining value. -/
def md5Init : MD5State :=
  { a := 1732584193, b := 4023233417, c := 2562383102, d := 271733878 }

/-- The digest `md5.New(); Write(msg); Sum(nil)`: sixteen bytes. -/
def md5Sum (msg : List UInt8) : List UInt8 :=
  let p := md5Pad msg
  let st := md5Blocks (p.length / 64) md5Init p
  putLE 4 st.a ++ putLE 4 st.b ++ putLE 4 st.c ++ putLE 4 st.d

/-- The alphabet of `encoding/hex`. -/
def hextable : GoString := lit "0123456789abcdef"

/-- The function `hex.EncodeToString`: two lowercase hex digits per byte, high
nibble first. -/
def hexEncode : List UInt8 → GoString
  | [] => []
  | v :: rest =>
    hextable.getD (v.toNat / 16) 0 :: hextable.getD (v.toNat % 16) 0 :: hexEncode rest

/-! ## client.go: signing -/

/-- Source `hashMD5`: hex of the MD5 digest of the text. -/
def hashMD5 (text : GoString) : GoString := hexEncode (md5Sum text)

/-- Source `buildSignature`: the `strings.Builder` receives the path, the
escaped literal, the token, the escaped literal again and the decimal
timestamp, in this order; the result is hashed. -/
def buildSignature (token : GoString) (path : GoString) (timestamp : Int) : GoString :=
  let b : GoString := []
  let b := b ++ path
  let b := b ++ lit "\\r\\n"
  let b := b ++ token
  let b := b ++ lit "\\r\\n"
  let b := b ++ FormatInt timestamp
  hashMD5 b

/-- The separator as the specification words it: backslash, r, backslash, n. -/
def signSeparator : GoString := [92, 114, 92, 110]

/-- The signed text as the specification words it: path, separator, token,
separator, decimal timestamp. -/
def signedMessage (path token : GoString) (timestamp : Int) : GoString :=
  path ++ signSeparator ++ token ++ signSeparator ++ FormatInt timestamp

/-- Membership in the lowercase hexadecimal alphabet. -/
def isLowerHex (c : UInt8) : Bool :=
  (decide (48 ≤ c.toNat) && decide (c.toNat ≤ 57)) ||
    (decide (97 ≤ c.toNat) && decide (c.toNat ≤ 102))

/-! ## time.Time -/

/-- An instant as `time.Time` stores it for the Unix accessors: whole seconds
since 1970-01-01T00:00:00Z and the nanoseconds within that second.  The
location, which only affects printing, is not modelled. -/
structure Time where
  sec : Int
  nsec : Fin 1000000000
deriving DecidableEq, Repr

/-- Two-complement wrap-around of a 64-bit signed integer. -/
def wrapInt64 (x : Int) : Int :=
  (x + 9223372036854775808) % 18446744073709551616 - 9223372036854775808

/-- Method `Time.UnixNano`: `unixSec*1e9 + nsec` in int64 arithmetic. -/
def Time.UnixNano (t : Time) : Int := wrapInt64 (t.sec * 1000000000 + (t.nsec.val : Int))

/-- Method `Time.UnixMilli`: `unixSec*1e3 + nsec/1e6` in int64 arithmetic. -/
def Time.UnixMilli (t : Time) : Int :=
  wrapInt64 (t.sec * 1000 + ((t.nsec.val / 1000000 : Nat) : Int))

/-- The exact count of milliseconds from the epoch to the instant, rounded
down. -/
def Time.epochMillis (t : Time) : Int :=
  (t.sec * 1000000000 + (t.nsec.val : Int)) / 1000000

/-- The constant `int64(time.Millisecond)`. -/
def millisecond : Int := 1000000

/-! ## client.go: headers -/

/-- Source `Client`: the token and user agent of the configuration (the HTTP
transport is a parameter of `Client.do_`). -/
structure Client where
  token : GoString
  userAgent : GoString
deriving DecidableEq, Repr

/-- Source `Client.buildHeaders`.  The map literal is kept as the list of its
key-value pairs in source order; Go's `/` on int64 truncates toward zero. -/
def Client.buildHeaders (c : Client) (path : GoString) (date : Time) :
    List (GoString × GoString) :=
  let timestamp := (date.UnixNano).tdiv millisecond
  [ (lit "content-type", lit "application/json"),
    (lit "lang", lit "en"),
    (lit "timestamp", FormatInt timestamp),
    (lit "user-agent", c.userAgent),
    (lit "token", c.token),
    (lit "signature", buildSignature c.token path timestamp) ]

/-- Lookup in a Go map given as its list of pairs. -/
def mapGet (m : List (GoString × GoString)) (k : GoString) : Option GoString :=
  (m.find? (fun kv => kv.1 == k)).map (fun kv => kv.2)

/-! ## client.go: errors and the response envelope -/

/-- A Go `error` value, by dynamic type. -/
inductive GoError where
  /-- Result of `fmt.Errorf` without a wrapping verb: only a text. -/
  | errorString (text : GoString)
  /-- Result of `fmt.Errorf` with the wrapping verb: a text and the wrapped error. -/
  | wrapError (text : GoString) (err : GoError)
  /-- Source `*RateLimitExceededError` with its `msg` field. -/
  | rateLimitExceeded (msg : GoString)
  /-- An error value of another package (transport, json, strconv, time),
  with the text of its `Error()`. -/
  | foreign (text : GoString)
deriving DecidableEq, Repr

/-- Method `Error()`; for the source type it is
`fmt.Sprintf("rate limit exceeded: %s", e.msg)`. -/
def GoError.Error : GoError → GoString
  | .errorString text => text
  | .wrapError text _ => text
  | .rateLimitExceeded msg => lit "rate limit exceeded: " ++ msg
  | .foreign text => text

/-- The type assertion `err.(*RateLimitExceededError)` succeeds. -/
def GoError.isRateLimitExceeded : GoError → Bool
  | .rateLimitExceeded _ => true
  | _ => false

/-- The call `fmt.Errorf(prefix + "%w", err)`. -/
def errorfWrap (pre : GoString) (err : GoError) : GoError :=
  .wrapError (pre ++ err.Error) err

def errNoNoError : Int := 0
def errNoTokenExpired : Int := 41808
def errNoTokenInvalid : Int := 41809
def errHeadersMissing : Int := 40256
def errBodyInvalid : Int := 40257
def errRequestsTooFrequent : Int := 40400
def errRateLimitExceeded : Int := 40402

/-- Source `errorResponse`. -/
structure errorResponse where
  ErrNo : Int
  Msg : GoString
deriving DecidableEq, Repr

/-- The `*http.Response` handed back by the transport; its body is read
separately. -/
structure Response where
  StatusCode : Int
deriving DecidableEq, Repr

/-- Outcome of `c.client.Do(req)` followed by `io.ReadAll(resp.Body)`. -/
inductive Transport where
  /-- The call `c.client.Do` returned an error. -/
  | failed (err : GoError)
  /-- The response arrived and reading its body failed. -/
  | unreadable (resp : Response) (err : GoError)
  /-- The response arrived and its whole body was read. -/
  | body (resp : Response) (data : GoString)
deriving DecidableEq, Repr

/-- The two uses of `json.Unmarshal` in `Client.do`, as state transformers on
the pointed-to value: the new value and the error.  A failing
`json.Unmarshal` may leave a partly filled value behind. -/
structure JSON (τ : Type) where
  unmarshalEnvelope : GoString → errorResponse → errorResponse × Option GoError
  unmarshal : GoString → τ → τ × Option GoError

/-- Source `Client.do`.  The outcome `tr` of the transport stands for
`c.client.Do(req)` and the body read.  The result is the value behind `res`
after the call, the returned response and the returned error. -/
def Client.do_ {τ : Type} (_c : Client) (json : JSON τ) (tr : Transport) (res : τ) :
    τ × Option Response × Option GoError :=
  match tr with
  | .failed err => (res, none, some err)
  | .unreadable _ err => (res, none, some (errorfWrap (lit "could not read response body: ") err))
  | .body resp data =>
    match json.unmarshalEnvelope data { ErrNo := 0, Msg := [] } with
    | (_, some err) =>
      (res, none, some (errorfWrap (lit "could not unmarshal json response: ") err))
    | (errResp, none) =>
      if errResp.ErrNo = errNoNoError then
        match json.unmarshal data res with
        | (res1, some err) =>
          (res1, none, some (errorfWrap (lit "could not unmarshal json response: ") err))
        | (res1, none) => (res1, some resp, none)
      else if errResp.ErrNo = errNoTokenInvalid ∨ errResp.ErrNo = errNoTokenExpired then
        (res, none, some (.errorString (lit "invalid token: " ++ errResp.Msg)))
      else if errResp.ErrNo = errHeadersMissing then
        (res, none, some (.errorString (lit "missing headers: " ++ errResp.Msg)))
      else if errResp.ErrNo = errBodyInvalid then
        (res, none, some (.errorString (lit "invalid body: " ++ errResp.Msg)))
      else if errResp.ErrNo = errRequestsTooFrequent then
        (res, none, some (.errorString (lit "rate limit exceeded: " ++ errResp.Msg)))
      else if errResp.ErrNo = errRateLimitExceeded then
        (res, none, some (.rateLimitExceeded errResp.Msg))
      else
        (res, none, some (.errorString (lit "invalid response, got error code: "
          ++ FormatInt errResp.ErrNo ++ lit ", message: " ++ errResp.Msg)))

/-! ## client.go: building requests -/

/-- The constant `baseURL`. -/
def baseURL : GoString := lit "https://www.foxesscloud.com"

/-- Helper `validHeaderFieldByte` of package textproto: the bytes of an HTTP
token. -/
def validHeaderFieldByte (c : UInt8) : Bool :=
  (decide (48 ≤ c.toNat) && decide (c.toNat ≤ 57))
    || (decide (65 ≤ c.toNat) && decide (c.toNat ≤ 90))
    || (decide (97 ≤ c.toNat) && decide (c.toNat ≤ 122))
    || [33, 35, 36, 37, 38, 39, 42, 43, 45, 46, 94, 95, 96, 124, 126].contains c.toNat

/-- The rewriting loop of `textproto.CanonicalMIMEHeaderKey`: upper case at
the start and after each hyphen, lower case elsewhere. -/
def canonicalLoop : Bool → GoString → GoString
  | _, [] => []
  | upper, c :: rest =>
    if upper && decide (97 ≤ c.toNat) && decide (c.toNat ≤ 122) then
      UInt8.ofNat (c.toNat - 32) :: canonicalLoop (UInt8.ofNat (c.toNat - 32) == 45) rest
    else if !upper && decide (65 ≤ c.toNat) && decide (c.toNat ≤ 90) then
      UInt8.ofNat (c.toNat + 32) :: canonicalLoop (UInt8.ofNat (c.toNat + 32) == 45) rest
    else c :: canonicalLoop (c == 45) rest

/-- The function `textproto.CanonicalMIMEHeaderKey`: a key with a byte that
is not a token byte is returned as it is. -/
def canonicalMIMEHeaderKey (s : GoString) : GoString :=
  if s.all validHeaderFieldByte then canonicalLoop true s else s

/-- An `http.Header`: canonical keys with their value lists. -/
abbrev Header := List (GoString × List GoString)

/-- Method `http.Header.Set`: the canonical key gets the single value. -/
def Header.Set (h : Header) (key value : GoString) : Header :=
  h.filter (fun kv => kv.1 != canonicalMIMEHeaderKey key) ++ [(canonicalMIMEHeaderKey key, [value])]

/-- The parts of an `*http.Request` that the package sets. -/
structure Request where
  method : GoString
  url : GoString
  body : Option GoString
  header : Header
deriving DecidableEq, Repr

/-- A `url.Values`: keys with their value lists. -/
abbrev Values := List (GoString × List GoString)

/-- What the package takes from its surroundings during one call. -/
structure Env where
  /-- The clock `time.Now()`. -/
  now : Time
  /-- The method `url.Values.Encode`. -/
  encode : Values → GoString
  /-- The error, if any, of `http.NewRequestWithContext` for a method and URL. -/
  newRequestError : GoString → GoString → Option GoError
  /-- The transport and body read for a request. -/
  roundTrip : Request → Transport

/-- Source `buildPath`. -/
def buildPath (encode : Values → GoString) (path : GoString) (qry : Values) : GoString :=
  if qry.length > 0 then baseURL ++ path ++ lit "?" ++ encode qry else baseURL ++ path

/-- Source `Client.newRequest`; `pld` is `none` for a nil payload and
otherwise the outcome of `json.Marshal(pld)`. -/
def Client.newRequest (c : Client) (env : Env) (method path : GoString) (qry : Values)
    (pld : Option (Except GoError GoString)) : Except GoError Request :=
  match pld with
  | some (.error err) => .error (errorfWrap (lit "could not marshal request body: ") err)
  | _ =>
    let body : Option GoString :=
      match pld with
      | some (.ok data) => some data
      | _ => none
    match env.newRequestError method (buildPath env.encode path qry) with
    | some err => .error err
    | none =>
      .ok { method := method, url := buildPath env.encode path qry, body := body,
            header := (c.buildHeaders path env.now).foldl (fun h kv => h.Set kv.1 kv.2) [] }

/-- Source `Client.newGetRequest`. -/
def Client.newGetRequest (c : Client) (env : Env) (path : GoString) (qry : Values) :
    Except GoError Request :=
  c.newRequest env (lit "GET") path qry none

/-- Source `Client.newPostRequest`; `pld` is the outcome of marshalling the
payload. -/
def Client.newPostRequest (c : Client) (env : Env) (path : GoString)
    (pld : Except GoError GoString) : Except GoError Request :=
  c.newRequest env (lit "POST") path [] (some pld)

/-! ## client.go: response shapes -/

/-- Source `DataListResponse`. -/
structure DataListResponse (T : Type) where
  Items : List T
deriving DecidableEq, Repr

/-- Source `wrappedDataListResponse`. -/
structure wrappedDataListResponse (T : Type) where
  Result : List T
deriving DecidableEq, Repr

/-- Source `wrappedDataListResponse.unwrap`. -/
def wrappedDataListResponse.unwrap {T : Type} (l : wrappedDataListResponse T) :
    DataListResponse T :=
  { Items := l.Result }

/-- Source `ListResponse`. -/
structure ListResponse (T : Type) where
  Items : List T
  CurrentPage : Int
  Pagesize : Int
  Total : Int
deriving DecidableEq, Repr

/-- The anonymous struct of the `Result` field of `wrappedListResponse`. -/
structure wrappedListResult (T : Type) where
  Data : List T
  CurrentPage : Int
  Pagesize : Int
  Total : Int
deriving DecidableEq, Repr

/-- Source `wrappedListResponse`. -/
structure wrappedListResponse (T : Type) where
  Result : wrappedListResult T
deriving DecidableEq, Repr

/-- Source `wrappedListResponse.unwrap`. -/
def wrappedListResponse.unwrap {T : Type} (l : wrappedListResponse T) : ListResponse T :=
  { Items := l.Result.Data,
    CurrentPage := l.Result.CurrentPage,
    Pagesize := l.Result.Pagesize,
    Total := l.Result.Total }

/-- Source `wrappedDetailResponse`; the pointer field is an `Option`. -/
structure wrappedDetailResponse (T : Type) where
  Result : Option T
deriving DecidableEq, Repr

/-- Source `wrappedDetailResponse.unwrap`. -/
def wrappedDetailResponse.unwrap {T : Type} (l : wrappedDetailResponse T) : Option T :=
  l.Result

/-! ## client.go: scalar codecs -/

/-- The function `strings.Trim(s, cutset)` for a cutset of one ASCII byte:
every leading and every trailing occurrence of the byte is removed. -/
def stringsTrim (s : GoString) (c : UInt8) : GoString :=
  ((s.reverse.dropWhile (fun x => x == c)).reverse).dropWhile (fun x => x == c)

/-- The JSON grammar of an integer number: an optional minus sign, then
either the digit zero alone or a non-zero digit followed by digits. -/
def isJSONInteger (s : GoString) : Bool :=
  match (if s.head? = some asciiMinus then s.drop 1 else s) with
  | [] => false
  | c :: rest => if c = 48 then rest.isEmpty else isDigitByte c && rest.all isDigitByte

/-- Source `QueryTimestamp`. -/
structure QueryTimestamp where
  Time : Foxess.Time
deriving DecidableEq, Repr

/-- Source `QueryTimestamp.MarshalJSON`: the bytes and the (always nil) error. -/
def QueryTimestamp.MarshalJSON (t : QueryTimestamp) : GoString × Option GoError :=
  (FormatInt t.Time.UnixMilli, none)

/-- A float64, by its IEEE-754 bit pattern. -/
structure Float64 where
  bits : Nat
deriving DecidableEq, Repr

/-- The zero value of float64. -/
def Float64.zero : Float64 := { bits := 0 }

/-- Source `DataFloat`. -/
structure DataFloat where
  Value : Float64
deriving DecidableEq, Repr

/-- Source `DataFloat.UnmarshalJSON`; `parseFloat` is
`strconv.ParseFloat(s, 64)` with its value and error. -/
def DataFloat.UnmarshalJSON (parseFloat : GoString → Float64 × Option GoError)
    (f : DataFloat) (b : GoString) : DataFloat × Option GoError :=
  let s := stringsTrim b asciiQuote
  if s = [] then (f, none)
  else
    match parseFloat s with
    | (_, some err) => (f, some err)
    | (v, none) => ({ Value := v }, none)

/-- Source `DataTimestamp`. -/
structure DataTimestamp where
  Time : Foxess.Time
deriving DecidableEq, Repr

/-! ### time.Parse for the layout `2006-01-02 15:04:05 MST-0700`

The layout splits into the chunks year, `-`, zero-padded month, `-`,
zero-padded day, space, hour, `:`, zero-padded minute, `:`, zero-padded second,
space, zone abbreviation, numeric zone.  The functions below are the helpers of
package `time` and the parse loop unrolled over these chunks. -/

/-- Helper `getnum`: one or two leading digits, exactly two when `fixed`. -/
def getnum (s : GoString) (fixed : Bool) : Option (Nat × GoString) :=
  match s with
  | [] => none
  | c0 :: rest =>
    if isDigitByte c0 then
      match rest with
      | [] => if fixed then none else some (c0.toNat - 48, rest)
      | c1 :: rest2 =>
        if isDigitByte c1 then some ((c0.toNat - 48) * 10 + (c1.toNat - 48), rest2)
        else if fixed then none else some (c0.toNat - 48, rest)
    else none

/-- Helper `cutspace`: drop leading spaces. -/
def cutspace (s : GoString) : GoString := s.dropWhile (fun x => x == 32)

/-- Helper `skip` for the prefix of one space: any run of spaces matches, and
so does the end of the value. -/
def skipSpace (value : GoString) : Option GoString :=
  match value with
  | [] => some []
  | c :: rest => if c = 32 then some (cutspace (c :: rest)) else none

/-- Helper `skip` for a prefix of one byte other than space. -/
def skipByte (p : UInt8) (value : GoString) : Option GoString :=
  match value with
  | [] => none
  | c :: rest => if c = p then some rest else none

/-- Helper `leadingInt`: the leading decimal digits as a uint64 and the rest;
`none` on overflow past `1 << 63`. -/
def leadingInt : Nat → GoString → Option (Nat × GoString)
  | x, [] => some (x, [])
  | x, c :: rest =>
    if isDigitByte c then
      if x > 9223372036854775808 / 10 then none
      else if x * 10 + (c.toNat - 48) > 9223372036854775808 then none
      else leadingInt (x * 10 + (c.toNat - 48)) rest
    else some (x, c :: rest)

/-- Helper `atoi` on a text without sign: all bytes must be digits. -/
def atoiDigits (s : GoString) : Option Nat :=
  match leadingInt 0 s with
  | some (x, []) => some x
  | _ => none

/-- Helper `parseSignedOffset`: length of a sign followed by a number of at
most 23, or 0. -/
def parseSignedOffset (value : GoString) : Nat :=
  match value with
  | [] => 0
  | sign :: rest =>
    if sign = 45 ∨ sign = 43 then
      match leadingInt 0 rest with
      | none => 0
      | some (x, rem) =>
        if rem.length = rest.length then 0
        else if x > 23 then 0
        else (sign :: rest).length - rem.length
    else 0

/-- Helper `parseGMT` on a value known to start with `GMT`. -/
def parseGMT (value : GoString) : Nat :=
  if (value.drop 3).length = 0 then 3 else 3 + parseSignedOffset (value.drop 3)

/-- The predicate `'A' <= c && c <= 'Z'`. -/
def isUpperByte (c : UInt8) : Bool := decide (65 ≤ c.toNat) && decide (c.toNat ≤ 90)

/-- Number of leading upper-case letters, counted up to six. -/
def countUpper : Nat → GoString → Nat
  | 0, _ => 0
  | _ + 1, [] => 0
  | n + 1, c :: rest => if isUpperByte c then 1 + countUpper n rest else 0

/-- Helper `parseTimeZone`: the length of the zone abbreviation at the head of
the value, `none` when there is none. -/
def parseTimeZone (value : GoString) : Option Nat :=
  if value.length < 3 then none
  else if value.length ≥ 4 ∧ (value.take 4 = lit "ChST" ∨ value.take 4 = lit "MeST") then some 4
  else if value.take 3 = lit "GMT" then some (parseGMT value)
  else if value.head? = some 43 ∨ value.head? = some 45 then
    (if parseSignedOffset value > 0 then some (parseSignedOffset value) else none)
  else
    match countUpper 6 value with
    | 5 => if value.getD 4 0 = 84 then some 5 else none
    | 4 => if value.getD 3 0 = 84 ∨ value.take 4 = lit "WITA" then some 4 else none
    | 3 => some 3
    | _ => none

/-- Helper `isLeap`. -/
def isLeap (year : Nat) : Bool :=
  year % 4 == 0 && (year % 100 != 0 || year % 400 == 0)

/-- Helper `daysIn`. -/
def daysIn (month year : Nat) : Nat :=
  if month = 2 then (if isLeap year then 29 else 28)
  else if month = 4 ∨ month = 6 ∨ month = 9 ∨ month = 11 then 30
  else 31

/-- Days from 1970-01-01 to the first day of the given month of the given
year in the proleptic Gregorian calendar. -/
def daysBeforeMonth (year month : Nat) : Int :=
  let y : Int := year
  let leaps (z : Int) : Int := (z - 1) / 4 - (z - 1) / 100 + (z - 1) / 400
  let cum : Nat := ([0, 31, 59, 90, 120, 151, 181, 212, 243, 273, 304, 334] : List Nat).getD (month - 1) 0
  365 * (y - 1970) + (leaps y - leaps 1970) + cum + (if isLeap year && decide (month > 2) then 1 else 0)

/-- The instant `time.Date(year, month, day, hour, min, sec, nsec, time.UTC)`
for fields in their normal ranges. -/
def dateUTC (year month day hour min sec nsec : Nat) : Time :=
  { sec := (daysBeforeMonth year month + ((day : Int) - 1)) * 86400
      + (hour * 3600 + min * 60 + sec : Nat),
    nsec := Fin.ofNat nsec }

/-- Fraction digits after the seconds field: a period or comma followed by
at least one digit is consumed with all digits after it; at most nine digits
count, as nanoseconds.  The result is the nanoseconds and the rest. -/
def parseFraction (value : GoString) : Option (Nat × GoString) :=
  match value with
  | c :: d :: rest =>
    if (c = 46 ∨ c = 44) ∧ isDigitByte d then
      let digits := (d :: rest).takeWhile isDigitByte
      let kept := digits.take 9
      match atoiDigits kept with
      | none => none
      | some ns => some (ns * 10 ^ (9 - kept.length), (d :: rest).dropWhile isDigitByte)
    else some (0, value)
  | _ => some (0, value)

/-- The numeric zone chunk `-0700`: a sign and two two-digit fields, the hour
at most 24 and the minute at most 60; the result is the offset in seconds east
of UTC and the rest. -/
def parseNumTZ (value : GoString) : Option (Int × GoString) :=
  if value.length < 5 then none
  else
    match getnum ((value.drop 1).take 2) true, getnum ((value.drop 3).take 2) true with
    | some (hr, _), some (mm, _) =>
      if hr > 24 ∨ mm > 60 then none
      else if value.head? = some 43 then some ((((hr * 60 + mm) * 60 : Nat) : Int), value.drop 5)
      else if value.head? = some 45 then some (- (((hr * 60 + mm) * 60 : Nat) : Int), value.drop 5)
      else none
    | _, _ => none

/-- The zone abbreviation chunk `MST`: the literal `UTC` selects the UTC
location, any other accepted abbreviation is looked at only for its length.
The result says whether UTC was selected, and the rest. -/
def parseZoneAbbrev (value : GoString) : Option (Bool × GoString) :=
  if value.length ≥ 3 ∧ value.take 3 = lit "UTC" then some (true, value.drop 3)
  else
    match parseTimeZone value with
    | none => none
    | some n => some (false, value.drop n)

/-- Whether and to what `time.Parse` with the layout
`2006-01-02 15:04:05 MST-0700` parses a value: `none` when it returns a
`*time.ParseError`.  When the abbreviation is `UTC` the result is
the date in UTC and the numeric offset is not applied; otherwise the numeric
offset is subtracted. -/
def parseServerTime (value : GoString) : Option Time :=
  if value.length < 4 then none else
  match atoiDigits (value.take 4) with
  | none => none
  | some year =>
  match skipByte 45 (value.drop 4) with
  | none => none
  | some v1 =>
  match getnum v1 true with
  | none => none
  | some (month, v2) =>
  if month = 0 ∨ 12 < month then none else
  match skipByte 45 v2 with
  | none => none
  | some v3 =>
  match getnum v3 true with
  | none => none
  | some (day, v4) =>
  match skipSpace v4 with
  | none => none
  | some v5 =>
  match getnum v5 false with
  | none => none
  | some (hour, v6) =>
  if 24 ≤ hour then none else
  match skipByte 58 v6 with
  | none => none
  | some v7 =>
  match getnum v7 true with
  | none => none
  | some (min, v8) =>
  if 60 ≤ min then none else
  match skipByte 58 v8 with
  | none => none
  | some v9 =>
  match getnum v9 true with
  | none => none
  | some (sec, v10) =>
  if 60 ≤ sec then none else
  match parseFraction v10 with
  | none => none
  | some (nsec, v11) =>
  match skipSpace v11 with
  | none => none
  | some v12 =>
  match parseZoneAbbrev v12 with
  | none => none
  | some (utc, v13) =>
  match parseNumTZ v13 with
  | none => none
  | some (zoneOffset, v14) =>
  if v14 ≠ [] then none
  else if day < 1 ∨ day > daysIn month year then none
  else
    let t := dateUTC year month day hour min sec nsec
    if utc then some t else some { t with sec := t.sec - zoneOffset }

/-- The call `time.Parse("2006-01-02 15:04:05 MST-0700", value)`: the time,
or the error; `parseError value` is the `*time.ParseError` that the library
builds for a rejected value. -/
def timeParse (parseError : GoString → GoError) (value : GoString) : Except GoError Time :=
  match parseServerTime value with
  | none => .error (parseError value)
  | some d => .ok d

/-- Source `DataTimestamp.UnmarshalJSON`. -/
def DataTimestamp.UnmarshalJSON (parseError : GoString → GoError) (t : DataTimestamp)
    (b : GoString) : DataTimestamp × Option GoError :=
  match timeParse parseError (stringsTrim b asciiQuote) with
  | .error err => (t, some err)
  | .ok d => ({ Time := d }, none)

/-! ## power_station.go and inverter.go -/

/-- Source `GetPowerStationOptions`. -/
structure GetPowerStationOptions where
  StationID : GoString
deriving DecidableEq, Repr

/-- The anonymous struct of `Installer` and `User`. -/
structure Contact where
  Phone : GoString
  Name : GoString
  Email : GoString
deriving DecidableEq, Repr

/-- The anonymous struct of the elements of `Modules`. -/
structure Module where
  ModuleSN : GoString
  DeviceSN : GoString
deriving DecidableEq, Repr

/-- Source `PowerStationDetail`. -/
structure PowerStationDetail where
  Country : GoString
  Address : GoString
  Installer : Contact
  City : GoString
  Timezone : GoString
  Postcode : GoString
  StationName : GoString
  User : Contact
  Modules : List Module
  Capacity : Float64
  CreateDate : DataTimestamp
deriving DecidableEq, Repr

/-- Source `PowerStation`. -/
structure PowerStation where
  Name : GoString
  IanaTimezone : GoString
  StationID : GoString
deriving DecidableEq, Repr

/-- Source `Inverter`. -/
structure Inverter where
  DeviceType : GoString
  HasBattery : Bool
  HasPV : Bool
  StationName : GoString
  ModuleSN : GoString
  DeviceSN : GoString
  ProductType : GoString
  StationID : GoString
  Status : Int
deriving DecidableEq, Repr

/-- Source `GetInverterOptions`. -/
structure GetInverterOptions where
  InverterSN : GoString
deriving DecidableEq, Repr

/-- Source `InverterDetail`; `Scheduler` is the field of the anonymous struct
`Function`. -/
structure InverterDetail where
  DeviceType : GoString
  MasterVersion : GoString
  AFCIVersion : GoString
  HasPV : Bool
  DeviceSN : GoString
  SlaveVersion : GoString
  HasBattery : Bool
  Scheduler : Bool
  HardwareVersion : GoString
  ManagerVersion : GoString
  StationName : GoString
  ModuleSN : GoString
  ProductType : GoString
  StationID : GoString
  Status : Int
deriving DecidableEq, Repr

/-- The elements of `InverterRealTimeData.Datas`; `V` is the package's
`Variable` type. -/
structure RealTimeDatum (V : Type) where
  Unit : GoString
  Name : GoString
  Variable : V
  Value : DataFloat

/-- Source `InverterRealTimeData`. -/
structure InverterRealTimeData (V : Type) where
  Datas : List (RealTimeDatum V)
  Time : DataTimestamp
  DeviceSN : GoString

/-- The elements of the `Data` field of a history series. -/
structure HistoryPoint where
  Time : DataTimestamp
  Value : DataFloat
deriving DecidableEq, Repr

/-- The elements of `InverterHistoryTimeData.Datas`. -/
structure HistorySeries (V : Type) where
  Unit : GoString
  Name : GoString
  Variable : V
  Data : List HistoryPoint

/-- Source `InverterHistoryTimeData`. -/
structure InverterHistoryTimeData (V : Type) where
  Datas : List (HistorySeries V)
  DeviceSN : GoString

/-- Source `ProductionReport`. -/
structure ProductionReport (V : Type) where
  Unit : GoString
  Values : List DataFloat
  Variable : V

/-- Source `PowerStationService.Get`. -/
def PowerStationService.Get (c : Client) (env : Env)
    (json : JSON (wrappedDetailResponse PowerStationDetail)) (opts : GetPowerStationOptions) :
    Option PowerStationDetail × Option GoError :=
  match c.newGetRequest env (lit "/op/v0/plant/detail") [(lit "id", [opts.StationID])] with
  | .error err => (none, some err)
  | .ok req =>
    match c.do_ json (env.roundTrip req) { Result := none } with
    | (_, _, some err) => (none, some err)
    | (resp, _, none) => (resp.unwrap, none)

/-- Source `PowerStationService.List`; `opts` is the outcome of marshalling
the options. -/
def PowerStationService.List (c : Client) (env : Env)
    (json : JSON (wrappedListResponse PowerStation)) (opts : Except GoError GoString) :
    Option (ListResponse PowerStation) × Option GoError :=
  match c.newPostRequest env (lit "/op/v0/plant/list") opts with
  | .error err => (none, some err)
  | .ok req =>
    match c.do_ json (env.roundTrip req)
        { Result := { Data := [], CurrentPage := 0, Pagesize := 0, Total := 0 } } with
    | (_, _, some err) => (none, some err)
    | (resp, _, none) => (some resp.unwrap, none)

/-- Source `InverterService.List`. -/
def InverterService.List (c : Client) (env : Env)
    (json : JSON (wrappedListResponse Inverter)) (opts : Except GoError GoString) :
    Option (ListResponse Inverter) × Option GoError :=
  match c.newPostRequest env (lit "/op/v0/device/list") opts with
  | .error err => (none, some err)
  | .ok req =>
    match c.do_ json (env.roundTrip req)
        { Result := { Data := [], CurrentPage := 0, Pagesize := 0, Total := 0 } } with
    | (_, _, some err) => (none, some err)
    | (resp, _, none) => (some resp.unwrap, none)

/-- Source `InverterService.Get`. -/
def InverterService.Get (c : Client) (env : Env)
    (json : JSON (wrappedDetailResponse InverterDetail)) (opts : GetInverterOptions) :
    Option InverterDetail × Option GoError :=
  match c.newGetRequest env (lit "/op/v0/device/detail") [(lit "sn", [opts.InverterSN])] with
  | .error err => (none, some err)
  | .ok req =>
    match c.do_ json (env.roundTrip req) { Result := none } with
    | (_, _, some err) => (none, some err)
    | (resp, _, none) => (resp.unwrap, none)

/-- Source `InverterService.GetRealtimeData`. -/
def InverterService.GetRealtimeData {V : Type} (c : Client) (env : Env)
    (json : JSON (wrappedDataListResponse (InverterRealTimeData V)))
    (opts : Except GoError GoString) :
    Option (DataListResponse (InverterRealTimeData V)) × Option GoError :=
  match c.newPostRequest env (lit "/op/v0/device/real/query") opts with
  | .error err => (none, some err)
  | .ok req =>
    match c.do_ json (env.roundTrip req) { Result := [] } with
    | (_, _, some err) => (none, some err)
    | (resp, _, none) => (some resp.unwrap, none)

/-- Source `InverterService.GetHistoryData`. -/
def InverterService.GetHistoryData {V : Type} (c : Client) (env : Env)
    (json : JSON (wrappedDataListResponse (InverterHistoryTimeData V)))
    (opts : Except GoError GoString) :
    Option (DataListResponse (InverterHistoryTimeData V)) × Option GoError :=
  match c.newPostRequest env (lit "/op/v0/device/history/query") opts with
  | .error err => (none, some err)
  | .ok req =>
    match c.do_ json (env.roundTrip req) { Result := [] } with
    | (_, _, some err) => (none, some err)
    | (resp, _, none) => (some resp.unwrap, none)

/-- Source `InverterService.GetProductionReport`. -/
def InverterService.GetProductionReport {V : Type} (c : Client) (env : Env)
    (json : JSON (wrappedDataListResponse (ProductionReport V)))
    (opts : Except GoError GoString) :
    Option (DataListResponse (ProductionReport V)) × Option GoError :=
  match c.newPostRequest env (lit "/op/v0/device/report/query") opts with
  | .error err => (none, some err)
  | .ok req =>
    match c.do_ json (env.roundTrip req) { Result := [] } with
    | (_, _, some err) => (none, some err)
    | (resp, _, none) => (some resp.unwrap, none)

/-! ## Sample collaborators

Concrete instances of the collaborators, for the sample bodies of the
specification: what `encoding/json` decodes them to. -/

/-- The body with errno 40402 and msg x. -/
def rateLimitBody : GoString := lit "\x7b\"errno\":40402,\"msg\":\"x\"\x7d"

/-- The body with errno 40256 and msg y. -/
def missingHeadersBody : GoString := lit "\x7b\"errno\":40256,\"msg\":\"y\"\x7d"

/-- The body with errno 0 and a result object with stationID S1. -/
def detailBody : GoString := lit "\x7b\"errno\":0,\"result\":\x7b\"stationID\":\"S1\"\x7d\x7d"

/-- The body with errno 0 and no result. -/
def emptyDetailBody : GoString := lit "\x7b\"errno\":0\x7d"

/-- The paginated body with one item named A, page 1, page size 10, total 1. -/
def listBody : GoString :=
  lit "\x7b\"errno\":0,\"result\":\x7b\"data\":[\x7b\"name\":\"A\"\x7d],\"currentPage\":1,\"pageSize\":10,\"total\":1\x7d\x7d"

/-- Decoding of the sample bodies into `errorResponse`; fields absent from the
body keep their value, any other body is taken as malformed. -/
def sampleEnvelope (data : GoString) (v : errorResponse) : errorResponse × Option GoError :=
  if data = rateLimitBody then ({ ErrNo := 40402, Msg := lit "x" }, none)
  else if data = missingHeadersBody then ({ ErrNo := 40256, Msg := lit "y" }, none)
  else if data = detailBody ∨ data = emptyDetailBody ∨ data = listBody then
    ({ v with ErrNo := 0 }, none)
  else (v, some (.foreign (lit "unexpected end of JSON input")))

/-- The zero value of `InverterDetail`. -/
def InverterDetail.zero : InverterDetail :=
  { DeviceType := [], MasterVersion := [], AFCIVersion := [], HasPV := false, DeviceSN := [],
    SlaveVersion := [], HasBattery := false, Scheduler := false, HardwareVersion := [],
    ManagerVersion := [], StationName := [], ModuleSN := [], ProductType := [],
    StationID := [], Status := 0 }

/-- Decoding of the sample bodies into the detail wrapper of `InverterDetail`. -/
def sampleDetailJSON : JSON (wrappedDetailResponse InverterDetail) :=
  { unmarshalEnvelope := sampleEnvelope,
    unmarshal := fun data v =>
      if data = detailBody then
        ({ Result := some { InverterDetail.zero with StationID := lit "S1" } }, none)
      else if data = emptyDetailBody then (v, none)
      else (v, some (.foreign (lit "unexpected end of JSON input"))) }

/-- Decoding of the sample bodies into the paginated wrapper of `PowerStation`. -/
def sampleListJSON : JSON (wrappedListResponse PowerStation) :=
  { unmarshalEnvelope := sampleEnvelope,
    unmarshal := fun data v =>
      if data = listBody then
        ({ Result := { Data := [{ Name := lit "A", IanaTimezone := [], StationID := [] }],
                       CurrentPage := 1, Pagesize := 10, Total := 1 } }, none)
      else (v, some (.foreign (lit "unexpected end of JSON input"))) }

/-- A client with token tok and user agent ua. -/
def sampleClient : Client := { token := lit "tok", userAgent := lit "ua" }

/-- Surroundings in which every request is well formed and every response
carries the given body with status 200, at 2024-03-01T10:00:00Z. -/
def sampleEnv (data : GoString) : Env :=
  { now := { sec := 1709287200, nsec := 0 },
    encode := fun _ => [],
    newRequestError := fun _ _ => none,
    roundTrip := fun _ => .body { StatusCode := 200 } data }

/-- A 64-byte block; it differs from `collisionPathB` in two bytes. -/
def collisionPathA : GoString :=
  [0x4d, 0xc9, 0x68, 0xff, 0x0e, 0xe3, 0x5c, 0x20, 0x95, 0x72, 0xd4, 0x77, 0x7b, 0x72, 0x15, 0x87,
   0xd3, 0x6f, 0xa7, 0xb2, 0x1b, 0xdc, 0x56, 0xb7, 0x4a, 0x3d, 0xc0, 0x78, 0x3e, 0x7b, 0x95, 0x18,
   0xaf, 0xbf, 0xa2, 0x00, 0xa8, 0x28, 0x4b, 0xf3, 0x6e, 0x8e, 0x4b, 0x55, 0xb3, 0x5f, 0x42, 0x75,
   0x93, 0xd8, 0x49, 0x67, 0x6d, 0xa0, 0xd1, 0x55, 0x5d, 0x83, 0x60, 0xfb, 0x5f, 0x07, 0xfe, 0xa2]

/-- A 64-byte block with the same MD5 chaining value as `collisionPathA`. -/
def collisionPathB : GoString :=
  [0x4d, 0xc9, 0x68, 0xff, 0x0e, 0xe3, 0x5c, 0x20, 0x95, 0x72, 0xd4, 0x77, 0x7b, 0x72, 0x15, 0x87,
   0xd3, 0x6f, 0xa7, 0xb2, 0x1b, 0xdc, 0x56, 0xb7, 0x4a, 0x3d, 0xc0, 0x78, 0x3e, 0x7b, 0x95, 0x18,
   0xaf, 0xbf, 0xa2, 0x02, 0xa8, 0x28, 0x4b, 0xf3, 0x6e, 0x8e, 0x4b, 0x55, 0xb3, 0x5f, 0x42, 0x75,
   0x93, 0xd8, 0x49, 0x67, 0x6d, 0xa0, 0xd1, 0xd5, 0x5d, 0x83, 0x60, 0xfb, 0x5f, 0x07, 0xfe, 0xa2]

/-- Number of binary digits of `n` added to `acc`; `fuel` bounds the count. -/
def bitLength : Nat → Nat → Nat → Nat
  | 0, _, acc => acc
  | fuel + 1, n, acc => if n = 0 then acc else bitLength fuel (n / 2) (acc + 1)

/-- The float64 nearest to `n / d` (ties to even) with the given sign, for
`d > 0`, and whether the magnitude overflows the finite range. -/
def float64OfRatio (neg : Bool) (n d : Nat) : Float64 × Bool :=
  let signBit : Nat := if neg then 9223372036854775808 else 0
  if n = 0 then ({ bits := signBit }, false)
  else
    let scale (e : Int) : Nat × Nat :=
      if 0 ≤ e then (n, d * 2 ^ e.toNat) else (n * 2 ^ (-e).toNat, d)
    let l : Int := (bitLength n n 0 : Int) - (bitLength d d 0 : Int)
    let fl : Int := if (scale l).2 ≤ (scale l).1 then l
      else if (scale (l - 1)).2 ≤ (scale (l - 1)).1 then l - 1 else l - 2
    let fl : Int := if (scale (fl + 1)).2 ≤ (scale (fl + 1)).1 then fl + 1 else fl
    let e0 : Int := max (fl - 52) (-1074)
    let q := (scale e0).1 / (scale e0).2
    let r := (scale e0).1 % (scale e0).2
    let m0 := if 2 * r > (scale e0).2 ∨ (2 * r = (scale e0).2 ∧ q % 2 = 1) then q + 1 else q
    let m := if m0 = 9007199254740992 then 4503599627370496 else m0
    let e : Int := if m0 = 9007199254740992 then e0 + 1 else e0
    if m < 4503599627370496 then ({ bits := signBit + m }, false)
    else if e + 1075 ≥ 2047 then ({ bits := signBit + 2047 * 4503599627370496 }, true)
    else ({ bits := signBit + (e + 1075).toNat * 4503599627370496 + (m - 4503599627370496) }, false)

/-- Helper `lower` of package strconv: `c | ('x' - 'X')`. -/
def lowerByte (c : UInt8) : UInt8 := UInt8.ofNat (c.toNat ||| 32)

/-- Helper `commonPrefixLenIgnoreCase` of package strconv; the second text is
in lower case. -/
def commonPrefixLenIgnoreCase : GoString → GoString → Nat
  | c :: s, p :: pre =>
    if (if 65 ≤ c.toNat ∧ c.toNat ≤ 90 then UInt8.ofNat (c.toNat + 32) else c) = p then
      1 + commonPrefixLenIgnoreCase s pre
    else 0
  | _, _ => 0

/-- Helper `special` of package strconv: the infinities and NaN, with the
number of bytes consumed. -/
def special (s : GoString) : Option (Float64 × Nat) :=
  let infLen (t : GoString) : Nat :=
    if 3 < commonPrefixLenIgnoreCase t (lit "infinity")
        ∧ commonPrefixLenIgnoreCase t (lit "infinity") < 8 then 3
    else commonPrefixLenIgnoreCase t (lit "infinity")
  match s with
  | [] => none
  | c :: rest =>
    if c = 43 ∨ c = 45 then
      if infLen rest = 3 ∨ infLen rest = 8 then
        some ({ bits := if c = 45 then 0xFFF0000000000000 else 0x7FF0000000000000 },
          1 + infLen rest)
      else none
    else if c = 105 ∨ c = 73 then
      if infLen s = 3 ∨ infLen s = 8 then some ({ bits := 0x7FF0000000000000 }, infLen s)
      else none
    else if c = 110 ∨ c = 78 then
      if commonPrefixLenIgnoreCase s (lit "nan") = 3 then some ({ bits := 0x7FF8000000000001 }, 3)
      else none
    else none

/-- State of the mantissa loop of `readFloat`: the digits read as a number,
their count after leading zeros, the position of the point, and the flags. -/
structure MantState where
  mant : Nat
  nd : Nat
  dp : Int
  sawdot : Bool
  sawdigits : Bool
  underscores : Bool

/-- The mantissa loop of `readFloat` in the given base (10 or 16): the state
at the first byte that is not part of the mantissa, and the rest from there. -/
def readMantissa (base : Nat) : MantState → GoString → MantState × GoString
  | st, [] => (st, [])
  | st, c :: rest =>
    if c = 95 then readMantissa base { st with underscores := true } rest
    else if c = 46 then
      if st.sawdot then (st, c :: rest)
      else readMantissa base { st with sawdot := true, dp := st.nd } rest
    else if isDigitByte c then
      if c = 48 ∧ st.nd = 0 then
        readMantissa base { st with sawdigits := true, dp := st.dp - 1 } rest
      else
        readMantissa base
          { st with sawdigits := true, nd := st.nd + 1, mant := st.mant * base + (c.toNat - 48) }
          rest
    else if base = 16 ∧ 97 ≤ (lowerByte c).toNat ∧ (lowerByte c).toNat ≤ 102 then
      readMantissa base
        { st with sawdigits := true, nd := st.nd + 1,
                  mant := st.mant * 16 + ((lowerByte c).toNat - 97 + 10) }
        rest
    else (st, c :: rest)

/-- The digits of the exponent of `readFloat`: the value, which stops growing
at 10000, whether an underscore was seen, and the rest. -/
def readExponent : Nat → Bool → GoString → Nat × Bool × GoString
  | e, u, [] => (e, u, [])
  | e, u, c :: rest =>
    if c = 95 then readExponent e true rest
    else if isDigitByte c then
      readExponent (if e < 10000 then e * 10 + (c.toNat - 48) else e) u rest
    else (e, u, c :: rest)

/-- Helper `underscoreOK` of package strconv, after the optional sign: the
last kind of byte seen is `0` for a digit, `1` for an underscore, `2` for
anything else and `3` at the start. -/
def underscoreScan (hex : Bool) : Nat → GoString → Bool
  | saw, [] => saw != 1
  | saw, c :: rest =>
    if isDigitByte c || (hex && decide (97 ≤ (lowerByte c).toNat) && decide ((lowerByte c).toNat ≤ 102))
    then underscoreScan hex 0 rest
    else if c = 95 then (if saw != 0 then false else underscoreScan hex 1 rest)
    else if saw = 1 then false
    else underscoreScan hex 2 rest

/-- Helper `underscoreOK` of package strconv. -/
def underscoreOK (s : GoString) : Bool :=
  let s1 := if s.head? = some 45 ∨ s.head? = some 43 then s.drop 1 else s
  if s1.length ≥ 2 ∧ s1.head? = some 48
      ∧ (lowerByte (s1.getD 1 0) = 98 ∨ lowerByte (s1.getD 1 0) = 111
          ∨ lowerByte (s1.getD 1 0) = 120) then
    underscoreScan (lowerByte (s1.getD 1 0) == 120) 0 (s1.drop 2)
  else underscoreScan false 3 s1

/-- Helper `readFloat` of package strconv together with the conversion: the
sign, the exact value as a numerator and a denominator, and the number of
bytes consumed; `none` when the text is not a number. -/
def readFloat (s : GoString) : Option (Bool × Nat × Nat × Nat) :=
  match s with
  | [] => none
  | c0 :: _ =>
    let neg : Bool := c0 == 45
    let s1 := if c0 = 43 ∨ c0 = 45 then s.drop 1 else s
    let hex : Bool := decide (s1.length > 2) && s1.head? == some 48
      && lowerByte (s1.getD 1 0) == 120
    let s2 := if hex then s1.drop 2 else s1
    let base : Nat := if hex then 16 else 10
    match readMantissa base
        { mant := 0, nd := 0, dp := 0, sawdot := false, sawdigits := false,
          underscores := false } s2 with
    | (st, s3) =>
      if !st.sawdigits then none
      else
        let dp0 : Int := if st.sawdot then st.dp else st.nd
        let dp1 : Int := if hex then dp0 * 4 else dp0
        let ndMant : Int := if hex then (st.nd : Int) * 4 else st.nd
        let finish (dp : Int) (u : Bool) (rest : GoString) : Option (Bool × Nat × Nat × Nat) :=
          if u && !underscoreOK (s.take (s.length - rest.length)) then none
          else
            let ex : Int := dp - ndMant
            let b : Nat := if hex then 2 else 10
            if 0 ≤ ex then some (neg, st.mant * b ^ ex.toNat, 1, s.length - rest.length)
            else some (neg, st.mant, b ^ (-ex).toNat, s.length - rest.length)
        match s3 with
        | e :: s4 =>
          if lowerByte e = (if hex then 112 else 101) then
            match s4 with
            | [] => none
            | sg :: s5 =>
              let s6 := if sg = 43 ∨ sg = 45 then s5 else sg :: s5
              match s6 with
              | [] => none
              | d :: _ =>
                if !isDigitByte d then none
                else
                  match readExponent 0 st.underscores s6 with
                  | (ev, u, s7) =>
                    finish (dp1 + (if sg = 45 then - (ev : Int) else (ev : Int))) u s7
          else if hex then none
          else finish dp1 st.underscores s3
        | [] => if hex then none else finish dp1 st.underscores s3

/-- The function `strconv.Quote` on ASCII text; a byte above 0x7f is escaped
as a byte that is not valid UTF-8. -/
def quoteASCII (s : GoString) : GoString :=
  let hexByte (c : UInt8) : GoString :=
    [92, 120, hextable.getD (c.toNat / 16) 0, hextable.getD (c.toNat % 16) 0]
  let esc (c : UInt8) : GoString :=
    if c = 34 ∨ c = 92 then [92, c]
    else if 32 ≤ c.toNat ∧ c.toNat < 127 then [c]
    else if c = 7 then [92, 97]
    else if c = 8 then [92, 98]
    else if c = 12 then [92, 102]
    else if c = 10 then [92, 110]
    else if c = 13 then [92, 114]
    else if c = 9 then [92, 116]
    else if c = 11 then [92, 118]
    else hexByte c
  [34] ++ (s.map esc).flatten ++ [34]

/-- The function `strconv.ParseFloat(s, 64)`: the value and the error.  The
value is the float64 nearest to the exact value of the text; the error text
quotes the input with `quoteASCII`. -/
def sampleParseFloat (s : GoString) : Float64 × Option GoError :=
  let syntaxError : GoError :=
    .foreign (lit "strconv.ParseFloat: parsing " ++ quoteASCII s ++ lit ": invalid syntax")
  let rangeError : GoError :=
    .foreign (lit "strconv.ParseFloat: parsing " ++ quoteASCII s ++ lit ": value out of range")
  match special s with
  | some (v, n) => if n = s.length then (v, none) else (Float64.zero, some syntaxError)
  | none =>
    match readFloat s with
    | none => (Float64.zero, some syntaxError)
    | some (neg, n, d, used) =>
      if used ≠ s.length then (Float64.zero, some syntaxError)
      else
        match float64OfRatio neg n d with
        | (v, true) => (v, some rangeError)
        | (v, false) => (v, none)

/-- Two decimal digits of a number below one hundred. -/
def twoDigits (n : Nat) : GoString := [UInt8.ofNat (48 + n / 10), UInt8.ofNat (48 + n % 10)]

/-- Four decimal digits of a number below ten thousand. -/
def fourDigits (n : Nat) : GoString :=
  [UInt8.ofNat (48 + n / 1000), UInt8.ofNat (48 + n / 100 % 10),
   UInt8.ofNat (48 + n / 10 % 10), UInt8.ofNat (48 + n % 10)]

/-- A zone abbreviation of three upper-case letters, or of four or five
upper-case letters ending in T (or the four letters WITA), that does not start
with GMT or UTC. -/
def isPlainZone (zone : GoString) : Bool :=
  zone.all isUpperByte
    && (zone.length == 3 || (zone.length == 4 && (zone.getD 3 0 == 84 || zone == lit "WITA"))
        || (zone.length == 5 && zone.getD 4 0 == 84))
    && zone.take 3 != lit "GMT" && zone.take 3 != lit "UTC"

/-- The text `YYYY-MM-DD HH:MM:SS <zone><sign>HHMM` of the specification for
the given fields; `west` selects the minus sign. -/
def serverTimeText (year month day hour min sec : Nat) (zone : GoString) (west : Bool)
    (offHour offMin : Nat) : GoString :=
  fourDigits year ++ (45 :: (twoDigits month ++ (45 :: (twoDigits day ++ (32 ::
    (twoDigits hour ++ (58 :: (twoDigits min ++ (58 :: (twoDigits sec ++ (32 ::
      (zone ++ ((if west then 45 else 43) :: (twoDigits offHour ++ twoDigits offMin))))))))))))))

/-- The instant that the civil date and time denote at an offset of
`offHour:offMin` east (or west) of UTC. -/
def instantAtOffset (year month day hour min sec : Nat) (west : Bool) (offHour offMin : Nat) :
    Time :=
  { sec := (dateUTC year month day hour min sec 0).sec
      - (if west then - (((offHour * 60 + offMin) * 60 : Nat) : Int)
         else (((offHour * 60 + offMin) * 60 : Nat) : Int)),
    nsec := 0 }

/-! ## Lemmas: decimal text -/

theorem digit_toNat (k : Nat) (hk : k < 10) : (UInt8.ofNat (48 + k)).toNat = 48 + k := by
  interval_cases k <;> rfl

theorem digit_isDigit (k : Nat) (hk : k < 10) : isDigitByte (UInt8.ofNat (48 + k)) = true := by
  interval_cases k <;> rfl

theorem decimalDigits_digits (fuel n : Nat) :
    ∀ ch ∈ decimalDigits fuel n, isDigitByte ch = true := by
  induction fuel generalizing n with
  | zero => simp [decimalDigits]
  | succ fuel ih =>
    intro ch hch
    simp only [decimalDigits, asciiZero] at hch
    split_ifs at hch with h
    · simp only [List.mem_singleton] at hch
      subst hch; exact digit_isDigit n h
    · simp only [List.mem_append, List.mem_singleton] at hch
      rcases hch with hch | hch
      · exact ih _ ch hch
      · subst hch; exact digit_isDigit _ (Nat.mod_lt _ (by decide))

theorem decimalDigits_ne_nil (fuel n : Nat) : decimalDigits (fuel + 1) n ≠ [] := by
  unfold decimalDigits
  split_ifs <;> simp

theorem parseDigits_append (acc : Nat) (xs ys : GoString) :
    parseDigits acc (xs ++ ys) = (parseDigits acc xs).bind (fun v => parseDigits v ys) := by
  induction xs generalizing acc with
  | nil => simp [parseDigits]
  | cons c rest ih =>
    simp only [List.cons_append, parseDigits]
    split_ifs
    · exact ih _
    · rfl

theorem parseDigits_decimalDigits (fuel n : Nat) (h : n < fuel) :
    parseDigits 0 (decimalDigits fuel n) = some n := by
  induction fuel generalizing n with
  | zero => omega
  | succ fuel ih =>
    simp only [decimalDigits, asciiZero]
    split_ifs with h10
    · simp [parseDigits, digit_isDigit n h10, digit_toNat n h10, asciiZero]
    · have hlt : n / 10 < fuel := by omega
      have hm : n % 10 < 10 := Nat.mod_lt _ (by decide)
      rw [parseDigits_append, ih _ hlt]
      simp only [Option.some_bind, parseDigits, digit_isDigit _ hm, digit_toNat _ hm, asciiZero,
        if_true, Option.some.injEq]
      omega

theorem parseDigits_formatNat (n : Nat) : parseDigits 0 (formatNat n) = some n :=
  parseDigits_decimalDigits _ _ (Nat.lt_succ_self n)

theorem formatNat_digits (n : Nat) : ∀ ch ∈ formatNat n, isDigitByte ch = true :=
  decimalDigits_digits _ _

theorem formatNat_ne_nil (n : Nat) : formatNat n ≠ [] := decimalDigits_ne_nil _ _

theorem isDigit_ne_minus (c : UInt8) (h : isDigitByte c = true) : c ≠ asciiMinus := by
  rintro rfl
  revert h
  decide

theorem parseDecimal_FormatInt (i : Int) : parseDecimal (FormatInt i) = some i := by
  unfold FormatInt
  split_ifs with hneg
  · simp only [parseDecimal, if_true, formatNat_ne_nil, if_false, parseDigits_formatNat,
      Option.map_some']
    rw [Int.ofNat_natAbs_of_nonpos (le_of_lt hneg), neg_neg]
  · rcases hf : formatNat i.natAbs with _ | ⟨c, rest⟩
    · exact absurd hf (formatNat_ne_nil _)
    · have hc : isDigitByte c = true := formatNat_digits i.natAbs c (by simp [hf])
      simp only [parseDecimal, if_neg (isDigit_ne_minus c hc)]
      rw [← hf, parseDigits_formatNat]
      show some ((i.natAbs : Int)) = some i
      congr 1
      exact Int.natAbs_of_nonneg (not_lt.mp hneg)

theorem FormatInt_injective (a b : Int) (h : FormatInt a = FormatInt b) : a = b := by
  have := parseDecimal_FormatInt a
  rw [h, parseDecimal_FormatInt] at this
  exact (Option.some.inj this).symm

/-! ## Lemmas: MD5 and hex -/

theorem putLE_length (n x : Nat) : (putLE n x).length = n := by
  induction n generalizing x with
  | zero => rfl
  | succ n ih => simp [putLE, ih]

theorem md5Sum_length (msg : List UInt8) : (md5Sum msg).length = 16 := by
  simp [md5Sum, putLE_length]

theorem hexEncode_length (bs : List UInt8) : (hexEncode bs).length = 2 * bs.length := by
  induction bs with
  | nil => rfl
  | cons v rest ih => simp [hexEncode, ih]; omega

theorem hextable_lower : ∀ k, k < 16 → isLowerHex (hextable.getD k 0) = true := by decide

theorem hexEncode_lower (bs : List UInt8) : ∀ ch ∈ hexEncode bs, isLowerHex ch = true := by
  induction bs with
  | nil => simp [hexEncode]
  | cons v rest ih =>
    intro ch hch
    simp only [hexEncode, List.mem_cons] at hch
    have hv : v.toNat < 256 := by simpa using UInt8.toNat_lt v
    rcases hch with h | h | h
    · subst h; exact hextable_lower _ (by omega)
    · subst h; exact hextable_lower _ (by omega)
    · exact ih ch h

theorem lit_separator : lit "\\r\\n" = signSeparator := by decide

theorem buildSignature_eq (token path : GoString) (ts : Int) :
    buildSignature token path ts = hashMD5 (signedMessage path token ts) := by
  simp [buildSignature, signedMessage, lit_separator]

theorem hextable_inj : ∀ i, i < 16 → ∀ j, j < 16 →
    hextable.getD i 0 = hextable.getD j 0 → i = j := by decide

theorem hexEncode_injective (a b : List UInt8) (h : hexEncode a = hexEncode b) : a = b := by
  induction a generalizing b with
  | nil =>
    cases b with
    | nil => rfl
    | cons w rest => simp [hexEncode] at h
  | cons v rest ih =>
    cases b with
    | nil => simp [hexEncode] at h
    | cons w rest2 =>
      simp only [hexEncode, List.cons.injEq] at h
      obtain ⟨h1, h2, h3⟩ := h
      have hv : v.toNat < 256 := by simpa using UInt8.toNat_lt v
      have hw : w.toNat < 256 := by simpa using UInt8.toNat_lt w
      have e1 := hextable_inj _ (by omega) _ (by omega) h1
      have e2 := hextable_inj _ (by omega) _ (by omega) h2
      have : v.toNat = w.toNat := by omega
      rw [UInt8.toNat.inj this, ih _ h3]

theorem md5Sum_append_block (A B s : List UInt8) (hA : A.length = 64) (hB : B.length = 64)
    (h : md5Block md5Init A = md5Block md5Init B) : md5Sum (A ++ s) = md5Sum (B ++ s) := by
  have key : ∀ X : List UInt8, X.length = 64 →
      md5Sum (X ++ s) = (fun st : MD5State =>
        putLE 4 st.a ++ putLE 4 st.b ++ putLE 4 st.c ++ putLE 4 st.d)
        (md5Blocks ((s ++ [128] ++ List.replicate ((119 - (64 + s.length) % 64) % 64) 0
            ++ putLE 8 (((64 + s.length) * 8) % 18446744073709551616)).length / 64)
          (md5Block md5Init X)
          (s ++ [128] ++ List.replicate ((119 - (64 + s.length) % 64) % 64) 0
            ++ putLE 8 (((64 + s.length) * 8) % 18446744073709551616))) := by
    intro X hX
    have hp : md5Pad (X ++ s) = X ++ (s ++ [128]
        ++ List.replicate ((119 - (64 + s.length) % 64) % 64) 0
        ++ putLE 8 (((64 + s.length) * 8) % 18446744073709551616)) := by
      simp [md5Pad, hX]
    simp only [md5Sum, hp]
    generalize (s ++ [128] ++ List.replicate ((119 - (64 + s.length) % 64) % 64) 0
        ++ putLE 8 (((64 + s.length) * 8) % 18446744073709551616)) = R
    have hl : (X ++ R).length / 64 = R.length / 64 + 1 := by
      rw [List.length_append, hX]; omega
    rw [hl, md5Blocks]
    have ht : List.take 64 (X ++ R) = X := by
      rw [List.take_append_of_le_length (by omega), List.take_of_length_le (by omega)]
    have hd : List.drop 64 (X ++ R) = R := by
      rw [← hX]; exact List.drop_left X R
    rw [ht, hd]
  rw [key A hA, key B hB, h]

set_option maxRecDepth 100000 in
theorem md5_test_vectors :
    hashMD5 (lit "") = lit "d41d8cd98f00b204e9800998ecf8427e"
    ∧ hashMD5 (lit "abc") = lit "900150983cd24fb0d6963f7d28e17f72"
    ∧ hashMD5 (lit "message digest") = lit "f96b697d7cb7938d525a2f31aaf161d0" := by
  decide

set_option maxRecDepth 100000 in
theorem signature_sample :
    buildSignature (lit "tok") (lit "/op/v0/plant/list") 1700000000000
      = lit "2255282a9215477cd714811da604d9b1" := by
  decide

theorem collision_block : md5Block md5Init collisionPathA = md5Block md5Init collisionPathB := by
  decide

theorem buildSignature_collision (token : GoString) (ts : Int) :
    buildSignature token collisionPathA ts = buildSignature token collisionPathB ts := by
  simp only [buildSignature_eq, hashMD5, signedMessage, List.append_assoc]
  rw [md5Sum_append_block collisionPathA collisionPathB _ rfl rfl collision_block]

theorem finite_UInt8 : Finite UInt8 :=
  Finite.of_injective (fun u : UInt8 => (⟨u.toNat, UInt8.toNat_lt_size u⟩ : Fin 256))
    (fun a b h => UInt8.toNat.inj (by simpa using congrArg Fin.val h))

/-- For every path and timestamp two tokens of different lengths, each made
of the letter a only, have the same signature: there are infinitely many such
tokens and finitely many texts of 32 bytes. -/
theorem buildSignature_token_collision (path : GoString) (ts : Int) :
    ∃ m n : Nat, m ≠ n ∧
      buildSignature (List.replicate m 97) path ts
        = buildSignature (List.replicate n 97) path ts := by
  haveI := finite_UInt8
  haveI : Finite ↥{l : List UInt8 | l.length = 32} :=
    (List.finite_length_eq UInt8 32).to_subtype
  let f : Nat → ↥{l : List UInt8 | l.length = 32} := fun k =>
    ⟨buildSignature (List.replicate k 97) path ts, by
      show (buildSignature (List.replicate k 97) path ts).length = 32
      rw [buildSignature_eq, hashMD5, hexEncode_length, md5Sum_length]⟩
  obtain ⟨m, n, hne, heq⟩ := Finite.exists_ne_map_eq_of_infinite f
  exact ⟨m, n, hne, congrArg Subtype.val heq⟩

set_option maxRecDepth 100000 in
theorem adjacent_sample :
    buildSignature (lit "tok") (lit "/op/v0/plant/list") 1700000000001
      ≠ buildSignature (lit "tok") (lit "/op/v0/plant/list") 1700000000000 := by
  decide

/-! ## Lemmas: time -/

theorem epochMillis_eq (t : Time) :
    t.epochMillis = t.sec * 1000 + ((t.nsec.val / 1000000 : Nat) : Int) := by
  unfold Time.epochMillis
  have h := t.nsec.isLt
  push_cast
  omega

theorem wrapInt64_of_range (x : Int) (h1 : -9223372036854775808 ≤ x)
    (h2 : x < 9223372036854775808) : wrapInt64 x = x := by
  unfold wrapInt64
  omega

theorem FormatInt_shape (i : Int) :
    ∃ ds : GoString, ds ≠ [] ∧ (∀ d ∈ ds, isDigitByte d = true)
      ∧ FormatInt i = if i < 0 then asciiMinus :: ds else ds :=
  ⟨formatNat i.natAbs, formatNat_ne_nil _, formatNat_digits _, rfl⟩

theorem decimalDigits_head (fuel n : Nat) (h1 : 1 ≤ n) (h2 : n < fuel) :
    ∃ c rest, decimalDigits fuel n = c :: rest ∧ c ≠ 48 := by
  induction fuel generalizing n with
  | zero => omega
  | succ fuel ih =>
    simp only [decimalDigits, asciiZero]
    split_ifs with h10
    · refine ⟨_, [], rfl, ?_⟩
      interval_cases n <;> decide
    · obtain ⟨c, rest, hc, hne⟩ := ih (n / 10) (by omega) (by omega)
      exact ⟨c, rest ++ [UInt8.ofNat (48 + n % 10)], by rw [hc]; rfl, hne⟩

theorem isJSONInteger_digits (ds : GoString) (hne : ds ≠ [])
    (hd : ∀ d ∈ ds, isDigitByte d = true) (hz : ds = [48] ∨ ds.head? ≠ some 48) :
    isJSONInteger ds = true := by
  rcases ds with _ | ⟨c, rest⟩
  · exact absurd rfl hne
  · have hc : isDigitByte c = true := hd c (by simp)
    have hcm : c ≠ asciiMinus := isDigit_ne_minus c hc
    have hhead : ¬ ((c :: rest).head? = some asciiMinus) := by simpa using hcm
    simp only [isJSONInteger, if_neg hhead]
    by_cases h48 : c = 48
    · rcases hz with hz | hz
      · simp only [List.cons.injEq] at hz
        simp [h48, hz.2]
      · exact absurd (by simp [h48]) hz
    · simp only [if_neg h48, hc, Bool.true_and, List.all_eq_true]
      intro d hdm
      exact hd d (List.mem_cons_of_mem _ hdm)

theorem formatNat_zero_or_head (n : Nat) : formatNat n = [48] ∨ (formatNat n).head? ≠ some 48 := by
  by_cases h : n = 0
  · left; subst h; rfl
  · right
    obtain ⟨c, rest, hc, hne⟩ := decimalDigits_head (n + 1) n (by omega) (by omega)
    unfold formatNat
    rw [hc]
    simpa using hne

theorem isJSONInteger_FormatInt (i : Int) : isJSONInteger (FormatInt i) = true := by
  unfold FormatInt
  split_ifs with hneg
  · have hpos : 1 ≤ i.natAbs := by omega
    obtain ⟨c, rest, hc, hne⟩ := decimalDigits_head (i.natAbs + 1) i.natAbs hpos (by omega)
    have hfn : formatNat i.natAbs = c :: rest := hc
    have hall := formatNat_digits i.natAbs
    rw [hfn] at hall
    have hcd : isDigitByte c = true := hall c (by simp)
    have hrest : ∀ d ∈ rest, isDigitByte d = true := fun d hd => hall d (List.mem_cons_of_mem _ hd)
    simp only [isJSONInteger, hfn, List.head?_cons, if_true, List.drop_succ_cons, List.drop_zero,
      if_neg hne, hcd, Bool.true_and, List.all_eq_true]
    exact hrest
  · exact isJSONInteger_digits _ (formatNat_ne_nil _) (formatNat_digits _)
      (formatNat_zero_or_head _)

/-! ## Lemmas: the request headers -/

theorem header_fold (v3 v4 v5 v6 : GoString) :
    ([ (lit "content-type", lit "application/json"), (lit "lang", lit "en"),
       (lit "timestamp", v3), (lit "user-agent", v4), (lit "token", v5),
       (lit "signature", v6) ] : List (GoString × GoString)).foldl
        (fun h kv => Header.Set h kv.1 kv.2) []
      = [ (lit "Content-Type", [lit "application/json"]), (lit "Lang", [lit "en"]),
          (lit "Timestamp", [v3]), (lit "User-Agent", [v4]), (lit "Token", [v5]),
          (lit "Signature", [v6]) ] := by
  have k0 : canonicalMIMEHeaderKey (lit "content-type") = lit "Content-Type" := by decide
  have k1 : canonicalMIMEHeaderKey (lit "lang") = lit "Lang" := by decide
  have k2 : canonicalMIMEHeaderKey (lit "timestamp") = lit "Timestamp" := by decide
  have k3 : canonicalMIMEHeaderKey (lit "user-agent") = lit "User-Agent" := by decide
  have k4 : canonicalMIMEHeaderKey (lit "token") = lit "Token" := by decide
  have k5 : canonicalMIMEHeaderKey (lit "signature") = lit "Signature" := by decide
  have n01 : (lit "Content-Type" != lit "Lang") = true := by decide
  have n02 : (lit "Content-Type" != lit "Timestamp") = true := by decide
  have n03 : (lit "Content-Type" != lit "User-Agent") = true := by decide
  have n04 : (lit "Content-Type" != lit "Token") = true := by decide
  have n05 : (lit "Content-Type" != lit "Signature") = true := by decide
  have n12 : (lit "Lang" != lit "Timestamp") = true := by decide
  have n13 : (lit "Lang" != lit "User-Agent") = true := by decide
  have n14 : (lit "Lang" != lit "Token") = true := by decide
  have n15 : (lit "Lang" != lit "Signature") = true := by decide
  have n23 : (lit "Timestamp" != lit "User-Agent") = true := by decide
  have n24 : (lit "Timestamp" != lit "Token") = true := by decide
  have n25 : (lit "Timestamp" != lit "Signature") = true := by decide
  have n34 : (lit "User-Agent" != lit "Token") = true := by decide
  have n35 : (lit "User-Agent" != lit "Signature") = true := by decide
  have n45 : (lit "Token" != lit "Signature") = true := by decide
  simp only [List.foldl, Header.Set, k0, k1, k2, k3, k4, k5, List.filter, List.nil_append,
    List.cons_append, n01, n02, n03, n04, n05, n12, n13, n14, n15, n23, n24, n25, n34, n35, n45]

/-! ## Lemmas: the envelope dispatch -/

theorem do_error_of_errno {τ : Type} (c : Client) (json : JSON τ) (resp : Response)
    (data : GoString) (res : τ) (errResp : errorResponse)
    (h : json.unmarshalEnvelope data { ErrNo := 0, Msg := [] } = (errResp, none))
    (hne : errResp.ErrNo ≠ 0) :
    ∃ err, ∀ u : GoString → τ → τ × Option GoError,
      c.do_ { json with unmarshal := u } (.body resp data) res = (res, none, some err) := by
  simp only [Client.do_, h, errNoNoError, if_neg hne]
  split_ifs <;> exact ⟨_, fun _ => rfl⟩

theorem do_changes_only_on_success {τ : Type} (c : Client) (json : JSON τ) (tr : Transport)
    (res : τ) (hch : (c.do_ json tr res).1 ≠ res) :
    ∃ resp data errResp, tr = .body resp data
      ∧ json.unmarshalEnvelope data { ErrNo := 0, Msg := [] } = (errResp, none)
      ∧ errResp.ErrNo = 0 ∧ (c.do_ json tr res).1 = (json.unmarshal data res).1 := by
  cases tr with
  | failed err => simp [Client.do_] at hch
  | unreadable r err => simp [Client.do_] at hch
  | body resp data =>
    rcases he : json.unmarshalEnvelope data { ErrNo := 0, Msg := [] } with ⟨errResp, _ | e⟩
    · refine ⟨resp, data, errResp, rfl, he, ?_⟩
      simp only [Client.do_, he, errNoNoError] at hch ⊢
      by_cases h0 : errResp.ErrNo = 0
      · refine ⟨h0, ?_⟩
        simp only [if_pos h0]
        rcases hu : json.unmarshal data res with ⟨r, _ | err⟩ <;> simp
      · exfalso
        simp only [if_neg h0] at hch
        split_ifs at hch <;> simp at hch
    · simp [Client.do_, he] at hch

theorem do_result_cases {τ : Type} (c : Client) (json : JSON τ) (tr : Transport) (res : τ) :
    (∃ r resp, c.do_ json tr res = (r, some resp, none))
      ∨ (∃ r err, c.do_ json tr res = (r, none, some err)) := by
  cases tr with
  | failed err => exact Or.inr ⟨_, _, rfl⟩
  | unreadable r err => exact Or.inr ⟨_, _, rfl⟩
  | body resp data =>
    simp only [Client.do_]
    rcases json.unmarshalEnvelope data { ErrNo := 0, Msg := [] } with ⟨errResp, _ | e⟩
    · simp only
      split_ifs
      · rcases json.unmarshal data res with ⟨r, _ | err⟩
        · exact Or.inl ⟨_, _, rfl⟩
        · exact Or.inr ⟨_, _, rfl⟩
      all_goals exact Or.inr ⟨_, _, rfl⟩
    · exact Or.inr ⟨_, _, rfl⟩

/-! ## Lemmas: trimming and parsing the server timestamp -/

theorem stringsTrim_quoted (s : GoString) (q : UInt8) (hne : s ≠ [])
    (hh : s.head? ≠ some q) (hl : s.getLast? ≠ some q) :
    stringsTrim (q :: s ++ [q]) q = s := by
  unfold stringsTrim
  have hrev : (q :: s ++ [q]).reverse = q :: (s.reverse ++ [q]) := by simp
  rw [hrev]
  rcases hs : s.reverse with _ | ⟨b, r⟩
  · exact absurd (List.reverse_eq_nil_iff.mp hs) hne
  · have hsr : s = r.reverse ++ [b] := by
      have : s = (b :: r).reverse := by rw [← hs, List.reverse_reverse]
      simpa using this
    have hb : b ≠ q := by
      intro hbq
      apply hl
      rw [hsr, hbq]; simp
    rw [List.dropWhile_cons_of_pos (by simp), List.cons_append,
      List.dropWhile_cons_of_neg (by simpa using hb)]
    have hrr : (b :: (r ++ [q])).reverse = q :: s := by
      rw [hsr]; simp
    rw [hrr, List.dropWhile_cons_of_pos (by simp)]
    rcases s with _ | ⟨a, t⟩
    · exact absurd rfl hne
    · have ha : a ≠ q := by
        intro haq; apply hh; simp [haq]
      exact List.dropWhile_cons_of_neg (by simpa using ha)

theorem getnum_twoDigits (n : Nat) (hn : n < 100) (X : GoString) (fixed : Bool) :
    getnum (twoDigits n ++ X) fixed = some (n, X) := by
  have h1 : n / 10 < 10 := by omega
  have h2 : n % 10 < 10 := by omega
  simp only [twoDigits, List.cons_append, List.nil_append, getnum, digit_isDigit _ h1,
    digit_isDigit _ h2, digit_toNat _ h1, digit_toNat _ h2, if_true]
  congr 2
  omega

theorem atoiDigits_fourDigits (y : Nat) (hy : y < 10000) : atoiDigits (fourDigits y) = some y := by
  have h1 : y / 1000 < 10 := by omega
  have h2 : y / 100 % 10 < 10 := by omega
  have h3 : y / 10 % 10 < 10 := by omega
  have h4 : y % 10 < 10 := by omega
  simp only [atoiDigits, fourDigits, leadingInt, digit_isDigit _ h1, digit_isDigit _ h2,
    digit_isDigit _ h3, digit_isDigit _ h4, digit_toNat _ h1, digit_toNat _ h2,
    digit_toNat _ h3, digit_toNat _ h4, if_true]
  have e : ((((0 * 10 + (48 + y / 1000 - 48)) * 10 + (48 + y / 100 % 10 - 48)) * 10
      + (48 + y / 10 % 10 - 48)) * 10 + (48 + y % 10 - 48)) = y := by omega
  have a1 : ¬ (0 > 9223372036854775808 / 10) := by decide
  have a2 : ¬ (0 * 10 + (48 + y / 1000 - 48) > 9223372036854775808) := by omega
  have a3 : ¬ (0 * 10 + (48 + y / 1000 - 48) > 9223372036854775808 / 10) := by omega
  have a4 : ¬ ((0 * 10 + (48 + y / 1000 - 48)) * 10 + (48 + y / 100 % 10 - 48)
      > 9223372036854775808) := by omega
  have a5 : ¬ ((0 * 10 + (48 + y / 1000 - 48)) * 10 + (48 + y / 100 % 10 - 48)
      > 9223372036854775808 / 10) := by omega
  have a6 : ¬ (((0 * 10 + (48 + y / 1000 - 48)) * 10 + (48 + y / 100 % 10 - 48)) * 10
      + (48 + y / 10 % 10 - 48) > 9223372036854775808) := by omega
  have a7 : ¬ (((0 * 10 + (48 + y / 1000 - 48)) * 10 + (48 + y / 100 % 10 - 48)) * 10
      + (48 + y / 10 % 10 - 48) > 9223372036854775808 / 10) := by omega
  have a8 : ¬ ((((0 * 10 + (48 + y / 1000 - 48)) * 10 + (48 + y / 100 % 10 - 48)) * 10
      + (48 + y / 10 % 10 - 48)) * 10 + (48 + y % 10 - 48) > 9223372036854775808) := by omega
  have a9 : ¬ (y > 9223372036854775808) := by omega
  simp only [a1, a2, a3, a4, a5, a6, a7, a8, if_false, e, a9]


theorem digit_ne_space (k : Nat) (hk : k < 10) : UInt8.ofNat (48 + k) ≠ 32 := by
  interval_cases k <;> decide

theorem skipSpace_twoDigits (n : Nat) (hn : n < 100) (X : GoString) :
    skipSpace (32 :: (twoDigits n ++ X)) = some (twoDigits n ++ X) := by
  have h1 : n / 10 < 10 := by omega
  simp only [skipSpace, if_true, cutspace, twoDigits, List.cons_append, List.nil_append]
  rw [List.dropWhile_cons_of_pos (by simp),
    List.dropWhile_cons_of_neg (by simpa using digit_ne_space _ h1)]

theorem upper_ne (z : UInt8) (hz : isUpperByte z = true) :
    z ≠ 32 ∧ z ≠ 43 ∧ z ≠ 45 := by
  refine ⟨?_, ?_, ?_⟩ <;> (rintro rfl; revert hz; decide)

theorem skipSpace_upper (z : UInt8) (hz : isUpperByte z = true) (X : GoString) :
    skipSpace (32 :: z :: X) = some (z :: X) := by
  simp only [skipSpace, if_true, cutspace]
  rw [List.dropWhile_cons_of_pos (by simp),
    List.dropWhile_cons_of_neg (by simpa using (upper_ne z hz).1)]

theorem parseFraction_space (X : GoString) : parseFraction (32 :: X) = some (0, 32 :: X) := by
  cases X with
  | nil => rfl
  | cons d rest =>
    have h : ¬ ((32 : UInt8) = 46 ∨ (32 : UInt8) = 44) := by decide
    simp [parseFraction, h]

theorem signByte_cases (west : Bool) :
    ((if west then 45 else 43 : UInt8) = 45 ∨ (if west then 45 else 43 : UInt8) = 43)
    ∧ isUpperByte (if west then 45 else 43) = false
    ∧ (if west then 45 else 43 : UInt8) ≠ 84 := by
  cases west <;> decide

theorem parseZoneAbbrev_plain (zone : GoString) (west : Bool) (Y : GoString)
    (hz : isPlainZone zone = true) :
    parseZoneAbbrev (zone ++ (if west then 45 else 43) :: Y)
      = some (false, (if west then 45 else 43) :: Y) := by
  obtain ⟨hs1, hs2, hs3⟩ := signByte_cases west
  have e1 : lit "UTC" = [85, 84, 67] := by decide
  have e2 : lit "GMT" = [71, 77, 84] := by decide
  have e3 : lit "ChST" = [67, 104, 83, 84] := by decide
  have e4 : lit "MeST" = [77, 101, 83, 84] := by decide
  have e5 : lit "WITA" = [87, 73, 84, 65] := by decide
  have hlow1 : isUpperByte 104 = false := by decide
  have hlow2 : isUpperByte 101 = false := by decide
  simp only [isPlainZone, e1, e2, e5, Bool.and_eq_true, Bool.or_eq_true, beq_iff_eq,
    bne_iff_ne, ne_eq, List.all_eq_true] at hz
  obtain ⟨⟨⟨hall, hlen⟩, hgmt⟩, hutc⟩ := hz
  rcases zone with _ | ⟨z0, _ | ⟨z1, _ | ⟨z2, _ | ⟨z3, _ | ⟨z4, _ | ⟨z5, rest⟩⟩⟩⟩⟩⟩
  all_goals try (simp at hlen; done)
  · -- three letters
    have h0 := hall z0 (by simp)
    have h1 := hall z1 (by simp)
    have h2 := hall z2 (by simp)
    simp only [List.take_succ_cons, List.take_zero, List.take_nil] at hgmt hutc
    have htz : parseTimeZone ([z0, z1, z2] ++ (if west then 45 else 43) :: Y) = some 3 := by
      simp only [parseTimeZone, e2, e3, e4, List.length_cons, List.take_succ_cons,
        List.take_zero, List.head?_cons, countUpper, h0, h1, h2, hs2, if_true, if_false,
        List.cons_append, List.nil_append]
      have c1 : ¬ (Y.length + 1 + 1 + 1 + 1 < 3) := by omega
      simp [c1, hgmt, hs3, (upper_ne z0 h0).2.1, (upper_ne z0 h0).2.2]
    simp only [parseZoneAbbrev, htz]
    simp [e1, hutc]
  · -- four letters
    have h0 := hall z0 (by simp)
    have h1 := hall z1 (by simp)
    have h2 := hall z2 (by simp)
    have h3 := hall z3 (by simp)
    simp only [List.take_succ_cons, List.take_zero, List.take_nil] at hgmt hutc
    have hz1a : z1 ≠ 104 := by rintro rfl; rw [hlow1] at h1; cases h1
    have hz1b : z1 ≠ 101 := by rintro rfl; rw [hlow2] at h1; cases h1
    have hT : z3 = 84 ∨ [z0, z1, z2, z3] = [87, 73, 84, 65] := by
      simpa using hlen
    have htz : parseTimeZone ([z0, z1, z2, z3] ++ (if west then 45 else 43) :: Y) = some 4 := by
      simp only [parseTimeZone, e2, e3, e4, e5, List.length_cons, List.take_succ_cons,
        List.take_zero, List.head?_cons, countUpper, h0, h1, h2, h3, hs2, if_true, if_false,
        List.cons_append, List.nil_append]
      have c1 : ¬ (Y.length + 1 + 1 + 1 + 1 + 1 < 3) := by omega
      simp [c1, hgmt, hz1a, hz1b, (upper_ne z0 h0).2.1, (upper_ne z0 h0).2.2]
      rcases hT with h | h
      · simp [h]
      · simp only [List.cons.injEq, and_true] at h
        simp [h.1, h.2.1, h.2.2.1, h.2.2.2]
    simp only [parseZoneAbbrev, htz]
    simp [e1, hutc]
  · -- five letters
    have h0 := hall z0 (by simp)
    have h1 := hall z1 (by simp)
    have h2 := hall z2 (by simp)
    have h3 := hall z3 (by simp)
    have h4 := hall z4 (by simp)
    simp only [List.take_succ_cons, List.take_zero, List.take_nil] at hgmt hutc
    have hz1a : z1 ≠ 104 := by rintro rfl; rw [hlow1] at h1; cases h1
    have hz1b : z1 ≠ 101 := by rintro rfl; rw [hlow2] at h1; cases h1
    have hT : z4 = 84 := by simpa using hlen
    have htz : parseTimeZone ([z0, z1, z2, z3, z4] ++ (if west then 45 else 43) :: Y) = some 5 := by
      simp only [parseTimeZone, e2, e3, e4, e5, List.length_cons, List.take_succ_cons,
        List.take_zero, List.head?_cons, countUpper, h0, h1, h2, h3, h4, hs2, if_true, if_false,
        List.cons_append, List.nil_append]
      have c1 : ¬ (Y.length + 1 + 1 + 1 + 1 + 1 + 1 < 3) := by omega
      simp [c1, hgmt, hz1a, hz1b, hT, (upper_ne z0 h0).2.1, (upper_ne z0 h0).2.2]
    simp only [parseZoneAbbrev, htz]
    simp [e1, hutc]

theorem parseNumTZ_text (west : Bool) (oh om : Nat) (hoh : oh ≤ 24) (hom : om ≤ 60) :
    parseNumTZ ((if west then 45 else 43) :: (twoDigits oh ++ twoDigits om))
      = some ((if west then - (((oh * 60 + om) * 60 : Nat) : Int)
          else (((oh * 60 + om) * 60 : Nat) : Int)), []) := by
  have g1 := getnum_twoDigits oh (by omega) [] true
  have g2 := getnum_twoDigits om (by omega) [] true
  simp only [List.append_nil] at g1 g2
  have t1 : (((if west then 45 else 43 : UInt8) :: (twoDigits oh ++ twoDigits om)).drop 1).take 2
      = twoDigits oh := by simp [twoDigits]
  have t2 : (((if west then 45 else 43 : UInt8) :: (twoDigits oh ++ twoDigits om)).drop 3).take 2
      = twoDigits om := by simp [twoDigits]
  have t3 : ((if west then 45 else 43 : UInt8) :: (twoDigits oh ++ twoDigits om)).drop 5 = [] := by
    simp [twoDigits]
  have t4 : ¬ (((if west then 45 else 43 : UInt8) :: (twoDigits oh ++ twoDigits om)).length < 5) := by
    simp [twoDigits]
  have t5 : ¬ (oh > 24 ∨ om > 60) := by omega
  simp only [parseNumTZ, t1, t2, t3, t4, g1, g2, t5, if_false, List.head?_cons]
  cases west <;> simp


theorem isPlainZone_head (zone : GoString) (hz : isPlainZone zone = true) :
    ∃ z rest, zone = z :: rest ∧ isUpperByte z = true := by
  rcases zone with _ | ⟨z, rest⟩
  · exact absurd hz (by decide)
  · refine ⟨z, rest, rfl, ?_⟩
    simp only [isPlainZone, Bool.and_eq_true, List.all_eq_true] at hz
    exact hz.1.1.1 z (by simp)

theorem parseServerTime_text (year month day hour min sec : Nat) (zone : GoString) (west : Bool)
    (offHour offMin : Nat) (hy : year < 10000) (hm1 : 1 ≤ month) (hm2 : month ≤ 12)
    (hd1 : 1 ≤ day) (hd2 : day ≤ daysIn month year) (hh : hour < 24) (hmi : min < 60)
    (hs : sec < 60) (hz : isPlainZone zone = true) (hoh : offHour ≤ 24) (hom : offMin ≤ 60) :
    parseServerTime (serverTimeText year month day hour min sec zone west offHour offMin)
      = some (instantAtOffset year month day hour min sec west offHour offMin) := by
  obtain ⟨z, zrest, hzone, hzu⟩ := isPlainZone_head zone hz
  have hday : day < 100 := by
    have : daysIn month year ≤ 31 := by
      unfold daysIn; split_ifs <;> omega
    omega
  have l1 : ∀ X : GoString, ¬ ((fourDigits year ++ X).length < 4) := by
    intro X; simp [fourDigits]
  have l2 : ∀ X : GoString, (fourDigits year ++ X).take 4 = fourDigits year := by
    intro X; simp [fourDigits]
  have l3 : ∀ X : GoString, (fourDigits year ++ X).drop 4 = X := by
    intro X; simp [fourDigits]
  have sk : ∀ (p : UInt8) (X : GoString), skipByte p (p :: X) = some X := by
    intro p X; simp [skipByte]
  have hzsp : skipSpace (32 :: (zone ++ (if west then 45 else 43) ::
      (twoDigits offHour ++ twoDigits offMin)))
      = some (zone ++ (if west then 45 else 43) :: (twoDigits offHour ++ twoDigits offMin)) := by
    rw [hzone]; exact skipSpace_upper z hzu _
  have c1 : ¬ (month = 0 ∨ 12 < month) := by omega
  have c2 : ¬ (24 ≤ hour) := by omega
  have c3 : ¬ (60 ≤ min) := by omega
  have c4 : ¬ (60 ≤ sec) := by omega
  have c5 : ¬ (day < 1 ∨ day > daysIn month year) := by omega
  simp only [serverTimeText, parseServerTime, l1, l2, l3, if_false, atoiDigits_fourDigits year hy,
    sk, getnum_twoDigits month (by omega), c1, getnum_twoDigits day hday,
    skipSpace_twoDigits hour (by omega), getnum_twoDigits hour (by omega), c2,
    getnum_twoDigits min (by omega), c3, getnum_twoDigits sec (by omega), c4,
    parseFraction_space, hzsp, parseZoneAbbrev_plain zone west _ hz,
    parseNumTZ_text west offHour offMin hoh hom, c5, ne_eq, not_true_eq_false]
  simp only [instantAtOffset, dateUTC, Bool.false_eq_true, if_false]
  rfl

theorem parseZoneAbbrev_utc (Y : GoString) :
    parseZoneAbbrev (lit "UTC" ++ Y) = some (true, Y) := by
  have e1 : lit "UTC" = [85, 84, 67] := by decide
  simp [parseZoneAbbrev, e1]

theorem parseServerTime_utc (year month day hour min sec : Nat) (west : Bool)
    (offHour offMin : Nat) (hy : year < 10000) (hm1 : 1 ≤ month) (hm2 : month ≤ 12)
    (hd1 : 1 ≤ day) (hd2 : day ≤ daysIn month year) (hh : hour < 24) (hmi : min < 60)
    (hs : sec < 60) (hoh : offHour ≤ 24) (hom : offMin ≤ 60) :
    parseServerTime (serverTimeText year month day hour min sec (lit "UTC") west offHour offMin)
      = some (dateUTC year month day hour min sec 0) := by
  have hday : day < 100 := by
    have : daysIn month year ≤ 31 := by
      unfold daysIn; split_ifs <;> omega
    omega
  have l1 : ∀ X : GoString, ¬ ((fourDigits year ++ X).length < 4) := by
    intro X; simp [fourDigits]
  have l2 : ∀ X : GoString, (fourDigits year ++ X).take 4 = fourDigits year := by
    intro X; simp [fourDigits]
  have l3 : ∀ X : GoString, (fourDigits year ++ X).drop 4 = X := by
    intro X; simp [fourDigits]
  have sk : ∀ (p : UInt8) (X : GoString), skipByte p (p :: X) = some X := by
    intro p X; simp [skipByte]
  have hzsp : skipSpace (32 :: (lit "UTC" ++ (if west then 45 else 43) ::
      (twoDigits offHour ++ twoDigits offMin)))
      = some (lit "UTC" ++ (if west then 45 else 43) :: (twoDigits offHour ++ twoDigits offMin)) := by
    have e1 : lit "UTC" = [85, 84, 67] := by decide
    rw [e1]; exact skipSpace_upper 85 (by decide) _
  have c1 : ¬ (month = 0 ∨ 12 < month) := by omega
  have c2 : ¬ (24 ≤ hour) := by omega
  have c3 : ¬ (60 ≤ min) := by omega
  have c4 : ¬ (60 ≤ sec) := by omega
  have c5 : ¬ (day < 1 ∨ day > daysIn month year) := by omega
  simp only [serverTimeText, parseServerTime, l1, l2, l3, if_false, atoiDigits_fourDigits year hy,
    sk, getnum_twoDigits month (by omega), c1, getnum_twoDigits day hday,
    skipSpace_twoDigits hour (by omega), getnum_twoDigits hour (by omega), c2,
    getnum_twoDigits min (by omega), c3, getnum_twoDigits sec (by omega), c4,
    parseFraction_space, hzsp, parseZoneAbbrev_utc,
    parseNumTZ_text west offHour offMin hoh hom, c5, ne_eq, not_true_eq_false, if_true]

theorem serverTimeText_trim (year month day hour min sec : Nat) (zone : GoString) (west : Bool)
    (offHour offMin : Nat) (hy : year < 10000) :
    stringsTrim (asciiQuote ::
        serverTimeText year month day hour min sec zone west offHour offMin ++ [asciiQuote])
      asciiQuote = serverTimeText year month day hour min sec zone west offHour offMin := by
  have hq : ∀ k, k < 10 → UInt8.ofNat (48 + k) ≠ asciiQuote := by
    intro k hk; interval_cases k <;> decide
  apply stringsTrim_quoted
  · simp [serverTimeText, fourDigits]
  · have := hq (year / 1000) (by omega)
    simp [serverTimeText, fourDigits, this]
  · have hlast := hq (offMin % 10) (by omega)
    have hform : serverTimeText year month day hour min sec zone west offHour offMin
        = (fourDigits year ++ (45 :: (twoDigits month ++ (45 :: (twoDigits day ++ (32 ::
            (twoDigits hour ++ (58 :: (twoDigits min ++ (58 :: (twoDigits sec ++ (32 ::
              (zone ++ ((if west then 45 else 43) :: (twoDigits offHour
                ++ [UInt8.ofNat (48 + offMin / 10)])))))))))))))))
          ++ [UInt8.ofNat (48 + offMin % 10)] := by
      simp [serverTimeText, twoDigits]
    rw [hform, List.getLast?_append]
    simpa using hlast

/-! ## The claims -/

/-- C1: once the envelope of a response is parsed, its errno alone fixes the
outcome of `Client.do`: 0 goes on to decode the payload, 41808 and 41809 give
the generic error "invalid token: m", 40256 "missing headers: m", 40257
"invalid body: m", 40400 the generic error "rate limit exceeded: m", 40402 the
`RateLimitExceededError` carrying m, and every other code the generic error
naming the code and m; the returned error has the `RateLimitExceededError`
type exactly when errno is 40402. -/
theorem do_dispatch_by_errno {τ : Type} (c : Client) (json : JSON τ) (resp : Response) (data : GoString)
    (res : τ) (e : Int) (m : GoString)
    (h : json.unmarshalEnvelope data { ErrNo := 0, Msg := [] } = ({ ErrNo := e, Msg := m }, none)) :
    (e = 0 →
        (c.do_ json (.body resp data) res).1 = (json.unmarshal data res).1 ∧
        (c.do_ json (.body resp data) res).2.2 =
          (json.unmarshal data res).2.map (errorfWrap (lit "could not unmarshal json response: ")))
    ∧ (e = 41808 ∨ e = 41809 →
        c.do_ json (.body resp data) res
          = (res, none, some (.errorString (lit "invalid token: " ++ m))))
    ∧ (e = 40256 →
        c.do_ json (.body resp data) res
          = (res, none, some (.errorString (lit "missing headers: " ++ m))))
    ∧ (e = 40257 →
        c.do_ json (.body resp data) res
          = (res, none, some (.errorString (lit "invalid body: " ++ m))))
    ∧ (e = 40400 →
        c.do_ json (.body resp data) res
          = (res, none, some (.errorString (lit "rate limit exceeded: " ++ m))))
    ∧ (e = 40402 →
        c.do_ json (.body resp data) res = (res, none, some (.rateLimitExceeded m))
        ∧ (GoError.rateLimitExceeded m).Error = lit "rate limit exceeded: " ++ m)
    ∧ (e ≠ 0 → e ≠ 41808 → e ≠ 41809 → e ≠ 40256 → e ≠ 40257 → e ≠ 40400 → e ≠ 40402 →
        c.do_ json (.body resp data) res
          = (res, none, some (.errorString (lit "invalid response, got error code: "
              ++ FormatInt e ++ lit ", message: " ++ m))))
    ∧ (∀ err, (c.do_ json (.body resp data) res).2.2 = some err →
        (err.isRateLimitExceeded = true ↔ e = 40402)) := by
  refine ⟨?_, ?_, ?_, ?_, ?_, ?_, ?_, ?_⟩
  · intro he
    subst he
    simp only [Client.do_, h, errNoNoError]
    rcases hu : json.unmarshal data res with ⟨r, _ | err⟩ <;> simp
  · rintro (he | he) <;> subst he <;>
      simp [Client.do_, h, errNoNoError, errNoTokenInvalid, errNoTokenExpired]
  · intro he; subst he
    simp [Client.do_, h, errNoNoError, errNoTokenInvalid, errNoTokenExpired, errHeadersMissing]
  · intro he; subst he
    simp [Client.do_, h, errNoNoError, errNoTokenInvalid, errNoTokenExpired, errHeadersMissing,
      errBodyInvalid]
  · intro he; subst he
    simp [Client.do_, h, errNoNoError, errNoTokenInvalid, errNoTokenExpired, errHeadersMissing,
      errBodyInvalid, errRequestsTooFrequent]
  · intro he; subst he
    simp [Client.do_, h, errNoNoError, errNoTokenInvalid, errNoTokenExpired, errHeadersMissing,
      errBodyInvalid, errRequestsTooFrequent, errRateLimitExceeded, GoError.Error]
  · intro h0 h1 h2 h3 h4 h5 h6
    simp [Client.do_, h, errNoNoError, errNoTokenInvalid, errNoTokenExpired, errHeadersMissing,
      errBodyInvalid, errRequestsTooFrequent, errRateLimitExceeded, h0, h1, h2, h3, h4, h5, h6]
  · intro err
    simp only [Client.do_, h, errNoNoError, errNoTokenInvalid, errNoTokenExpired,
      errHeadersMissing, errBodyInvalid, errRequestsTooFrequent, errRateLimitExceeded]
    split_ifs with h0 h1 h2 h3 h4 h5
    · rcases hu : json.unmarshal data res with ⟨r, _ | err1⟩
      · simp
      · simp only [Option.some.injEq]
        intro he; subst he
        simp [errorfWrap, GoError.isRateLimitExceeded]; omega
    all_goals
      simp only [Option.some.injEq]
      intro he; subst he
      simp [GoError.isRateLimitExceeded]
      try omega

/-- C1, at the sample bodies: errno 40402 with msg x gives the typed error;
errno 40256 with msg y gives a generic error. -/
theorem do_dispatch_by_errno_witness :
    sampleClient.do_ sampleDetailJSON (.body { StatusCode := 200 } rateLimitBody)
        { Result := none }
      = ({ Result := none }, none, some (.rateLimitExceeded (lit "x")))
    ∧ sampleClient.do_ sampleDetailJSON (.body { StatusCode := 200 } missingHeadersBody)
        { Result := none }
      = ({ Result := none }, none, some (.errorString (lit "missing headers: y"))) :=
  ⟨((do_dispatch_by_errno sampleClient sampleDetailJSON { StatusCode := 200 } rateLimitBody
      { Result := none } 40402 (lit "x") (by decide)).2.2.2.2.2.1 rfl).1,
   (do_dispatch_by_errno sampleClient sampleDetailJSON { StatusCode := 200 } missingHeadersBody
      { Result := none } 40256 (lit "y") (by decide)).2.2.1 rfl⟩

/-- C2: a body whose envelope has a non-zero errno makes `Client.do` return an
error with the target as it was, whatever the payload decoder would do; the
target changes only when the envelope was parsed with errno 0, and then to
what the payload decoder left; and each of the seven service methods returns a
nil result whenever it returns an error. -/
theorem no_partial_results {τ : Type} (c : Client) (json : JSON τ) (res : τ) :
    (∀ resp data errResp,
        json.unmarshalEnvelope data { ErrNo := 0, Msg := [] } = (errResp, none) →
        errResp.ErrNo ≠ 0 →
        ∃ err, ∀ u : GoString → τ → τ × Option GoError,
          c.do_ { json with unmarshal := u } (.body resp data) res = (res, none, some err))
    ∧ (∀ tr, (c.do_ json tr res).1 ≠ res →
        ∃ resp data errResp, tr = .body resp data
          ∧ json.unmarshalEnvelope data { ErrNo := 0, Msg := [] } = (errResp, none)
          ∧ errResp.ErrNo = 0 ∧ (c.do_ json tr res).1 = (json.unmarshal data res).1)
    ∧ (∀ env j opts, (PowerStationService.Get c env j opts).2 ≠ none →
        (PowerStationService.Get c env j opts).1 = none)
    ∧ (∀ env j opts, (PowerStationService.List c env j opts).2 ≠ none →
        (PowerStationService.List c env j opts).1 = none)
    ∧ (∀ env j opts, (InverterService.List c env j opts).2 ≠ none →
        (InverterService.List c env j opts).1 = none)
    ∧ (∀ env j opts, (InverterService.Get c env j opts).2 ≠ none →
        (InverterService.Get c env j opts).1 = none)
    ∧ (∀ (V : Type) env j opts, (InverterService.GetRealtimeData (V := V) c env j opts).2 ≠ none →
        (InverterService.GetRealtimeData (V := V) c env j opts).1 = none)
    ∧ (∀ (V : Type) env j opts, (InverterService.GetHistoryData (V := V) c env j opts).2 ≠ none →
        (InverterService.GetHistoryData (V := V) c env j opts).1 = none)
    ∧ (∀ (V : Type) env j opts,
        (InverterService.GetProductionReport (V := V) c env j opts).2 ≠ none →
        (InverterService.GetProductionReport (V := V) c env j opts).1 = none) := by
  refine ⟨fun resp data errResp h hne => do_error_of_errno c json resp data res errResp h hne,
    fun tr h => do_changes_only_on_success c json tr res h, ?_, ?_, ?_, ?_, ?_, ?_, ?_⟩
  · intro env j opts
    unfold PowerStationService.Get
    cases c.newGetRequest env (lit "/op/v0/plant/detail") [(lit "id", [opts.StationID])] with
    | error e => simp
    | ok req =>
      rcases do_result_cases c j (env.roundTrip req) { Result := none } with
        ⟨r, resp, h⟩ | ⟨r, err, h⟩ <;> simp [h]
  · intro env j opts
    unfold PowerStationService.List
    cases c.newPostRequest env (lit "/op/v0/plant/list") opts with
    | error e => simp
    | ok req =>
      rcases do_result_cases c j (env.roundTrip req)
        { Result := { Data := [], CurrentPage := 0, Pagesize := 0, Total := 0 } } with
        ⟨r, resp, h⟩ | ⟨r, err, h⟩ <;> simp [h]
  · intro env j opts
    unfold InverterService.List
    cases c.newPostRequest env (lit "/op/v0/device/list") opts with
    | error e => simp
    | ok req =>
      rcases do_result_cases c j (env.roundTrip req)
        { Result := { Data := [], CurrentPage := 0, Pagesize := 0, Total := 0 } } with
        ⟨r, resp, h⟩ | ⟨r, err, h⟩ <;> simp [h]
  · intro env j opts
    unfold InverterService.Get
    cases c.newGetRequest env (lit "/op/v0/device/detail") [(lit "sn", [opts.InverterSN])] with
    | error e => simp
    | ok req =>
      rcases do_result_cases c j (env.roundTrip req) { Result := none } with
        ⟨r, resp, h⟩ | ⟨r, err, h⟩ <;> simp [h]
  · intro V env j opts
    unfold InverterService.GetRealtimeData
    cases c.newPostRequest env (lit "/op/v0/device/real/query") opts with
    | error e => simp
    | ok req =>
      rcases do_result_cases c j (env.roundTrip req) { Result := [] } with
        ⟨r, resp, h⟩ | ⟨r, err, h⟩ <;> simp [h]
  · intro V env j opts
    unfold InverterService.GetHistoryData
    cases c.newPostRequest env (lit "/op/v0/device/history/query") opts with
    | error e => simp
    | ok req =>
      rcases do_result_cases c j (env.roundTrip req) { Result := [] } with
        ⟨r, resp, h⟩ | ⟨r, err, h⟩ <;> simp [h]
  · intro V env j opts
    unfold InverterService.GetProductionReport
    cases c.newPostRequest env (lit "/op/v0/device/report/query") opts with
    | error e => simp
    | ok req =>
      rcases do_result_cases c j (env.roundTrip req) { Result := [] } with
        ⟨r, resp, h⟩ | ⟨r, err, h⟩ <;> simp [h]

/-- C2, at the sample body with errno 40256: the call fails and the target
is untouched for every payload decoder. -/
theorem no_partial_results_witness :
    ∃ err, ∀ u : GoString → wrappedDetailResponse InverterDetail →
        wrappedDetailResponse InverterDetail × Option GoError,
      sampleClient.do_ { sampleDetailJSON with unmarshal := u }
          (.body { StatusCode := 200 } missingHeadersBody)
          { Result := some InverterDetail.zero }
        = ({ Result := some InverterDetail.zero }, none, some err) :=
  (no_partial_results sampleClient sampleDetailJSON { Result := some InverterDetail.zero }).1
    { StatusCode := 200 } missingHeadersBody { ErrNo := 40256, Msg := lit "y" }
    (by decide) (by decide)

/-- C3: `buildSignature(token, path, timestamp)` is the lowercase hex text, 32
characters long, of the 16-byte MD5 digest of path, separator, token,
separator, decimal timestamp, in this order, where the separator is the four
bytes backslash, r, backslash, n and not carriage return and line feed. -/
theorem buildSignature_spec (token path : GoString) (timestamp : Int) :
    buildSignature token path timestamp
        = hexEncode (md5Sum (signedMessage path token timestamp))
    ∧ signedMessage path token timestamp
        = path ++ [92, 114, 92, 110] ++ token ++ [92, 114, 92, 110] ++ FormatInt timestamp
    ∧ (md5Sum (signedMessage path token timestamp)).length = 16
    ∧ (buildSignature token path timestamp).length = 32
    ∧ (∀ ch ∈ buildSignature token path timestamp, isLowerHex ch = true)
    ∧ signSeparator = lit "\\r\\n"
    ∧ signSeparator.length = 4
    ∧ signSeparator ≠ [13, 10]
    ∧ buildSignature (lit "tok") (lit "/op/v0/plant/list") 1700000000000
        = lit "2255282a9215477cd714811da604d9b1" := by
  refine ⟨by rw [buildSignature_eq]; rfl, rfl, md5Sum_length _, ?_, ?_, lit_separator.symm,
    rfl, by decide, signature_sample⟩
  · rw [buildSignature_eq, hashMD5, hexEncode_length, md5Sum_length]
  · rw [buildSignature_eq, hashMD5]; exact hexEncode_lower _

/-- C4 fails for a time past 2262-04-11: at 2300-01-01T00:00:00Z the int64
nanosecond count wraps and the timestamp header is -8032952073709, while the
epoch millisecond count of that instant is 10413792000000. -/
theorem buildHeaders_far_future :
    mapGet (sampleClient.buildHeaders (lit "/op/v0/plant/list") { sec := 10413792000, nsec := 0 })
        (lit "timestamp") = some (lit "-8032952073709")
    ∧ Time.epochMillis { sec := 10413792000, nsec := 0 } = 10413792000000
    ∧ Time.UnixMilli { sec := 10413792000, nsec := 0 } = 10413792000000
    ∧ FormatInt 10413792000000 = lit "10413792000000" := by
  decide

/-- C4 amended: for every client, path and time `buildHeaders` returns exactly
the six entries content-type, lang, timestamp, user-agent, token and
signature, with the timestamp text and the signature computed from one and
the same int64 value and from the bare path; for every time whose nanosecond
count fits in int64 that value is the nanosecond count divided by one million
and rounded toward zero, which for a time at or after the epoch is the epoch
millisecond count that `UnixMilli` returns; and `newRequest` sets exactly
these six headers, under their canonical names, on a request whose URL is
built from the path and the query. -/
theorem buildHeaders_entries (c : Client) (path : GoString) (date : Time) :
    c.buildHeaders path date =
        [ (lit "content-type", lit "application/json"),
          (lit "lang", lit "en"),
          (lit "timestamp", FormatInt ((date.UnixNano).tdiv 1000000)),
          (lit "user-agent", c.userAgent),
          (lit "token", c.token),
          (lit "signature", buildSignature c.token path ((date.UnixNano).tdiv 1000000)) ]
    ∧ (c.buildHeaders path date).length = 6
    ∧ ((c.buildHeaders path date).map Prod.fst).Nodup
    ∧ (-9223372036854775808 ≤ date.sec * 1000000000 + (date.nsec.val : Int) →
        date.sec * 1000000000 + (date.nsec.val : Int) < 9223372036854775808 →
        (date.UnixNano).tdiv 1000000
          = (date.sec * 1000000000 + (date.nsec.val : Int)).tdiv 1000000)
    ∧ (0 ≤ date.sec → date.sec * 1000000000 + (date.nsec.val : Int) < 9223372036854775808 →
        (date.UnixNano).tdiv 1000000 = date.epochMillis
        ∧ (date.UnixNano).tdiv 1000000 = date.UnixMilli)
    ∧ (∀ (env : Env) (method : GoString) (qry : Values)
        (pld : Option (Except GoError GoString)) (req : Request),
        c.newRequest env method path qry pld = .ok req →
        req.header =
            [ (lit "Content-Type", [lit "application/json"]),
              (lit "Lang", [lit "en"]),
              (lit "Timestamp", [FormatInt ((env.now.UnixNano).tdiv 1000000)]),
              (lit "User-Agent", [c.userAgent]),
              (lit "Token", [c.token]),
              (lit "Signature",
                [buildSignature c.token path ((env.now.UnixNano).tdiv 1000000)]) ]
        ∧ req.url = buildPath env.encode path qry) := by
  refine ⟨rfl, rfl, by simp only [Client.buildHeaders, List.map]; decide, ?_, ?_, ?_⟩
  · intro h0 h1
    unfold Time.UnixNano
    rw [wrapInt64_of_range _ h0 h1]
  · intro h0 h1
    have hn := date.nsec.isLt
    have hu : date.UnixNano = date.sec * 1000000000 + (date.nsec.val : Int) := by
      unfold Time.UnixNano
      exact wrapInt64_of_range _ (by omega) h1
    have hm : date.UnixMilli = date.sec * 1000 + ((date.nsec.val / 1000000 : Nat) : Int) := by
      unfold Time.UnixMilli
      exact wrapInt64_of_range _ (by push_cast; omega) (by push_cast; omega)
    rw [hm, epochMillis_eq, hu, Int.tdiv_eq_ediv (by omega) (by norm_num)]
    push_cast
    omega
  · intro env method qry pld req h
    have hdr : (c.buildHeaders path env.now).foldl (fun (h : Header) kv => h.Set kv.1 kv.2) []
        = [ (lit "Content-Type", [lit "application/json"]),
            (lit "Lang", [lit "en"]),
            (lit "Timestamp", [FormatInt ((env.now.UnixNano).tdiv 1000000)]),
            (lit "User-Agent", [c.userAgent]),
            (lit "Token", [c.token]),
            (lit "Signature",
              [buildSignature c.token path ((env.now.UnixNano).tdiv 1000000)]) ] :=
      header_fold _ _ _ _
    unfold Client.newRequest at h
    rcases pld with _ | (e | d)
    · simp only at h
      split at h
      · cases h
      · cases h; exact ⟨hdr, rfl⟩
    · simp at h
    · simp only at h
      split at h
      · cases h
      · cases h; exact ⟨hdr, rfl⟩

/-- C4 amended, at 2024-03-01T10:00:00.123456789Z: the timestamp is
1709287200123, and a GET request for /op/v0/plant/list built at
2024-03-01T10:00:00Z carries the six headers under their canonical names. -/
theorem buildHeaders_entries_witness :
    (Time.UnixNano { sec := 1709287200, nsec := 123456789 }).tdiv 1000000 = 1709287200123
    ∧ mapGet (sampleClient.buildHeaders (lit "/op/v0/plant/list")
        { sec := 1709287200, nsec := 123456789 }) (lit "timestamp") = some (lit "1709287200123")
    ∧ ((sampleClient.buildHeaders (lit "/op/v0/plant/list") (sampleEnv []).now).foldl
          (fun (h : Header) kv => h.Set kv.1 kv.2) []).map Prod.fst
        = [lit "Content-Type", lit "Lang", lit "Timestamp", lit "User-Agent", lit "Token",
            lit "Signature"] :=
  ⟨((buildHeaders_entries sampleClient (lit "/op/v0/plant/list")
      { sec := 1709287200, nsec := 123456789 }).2.2.2.2.1 (by decide) (by decide)).1.trans
      (by decide), by decide,
   congrArg (List.map Prod.fst)
    ((buildHeaders_entries sampleClient (lit "/op/v0/plant/list")
      { sec := 1709287200, nsec := 123456789 }).2.2.2.2.2 (sampleEnv []) (lit "GET") [] none
      { method := lit "GET", url := buildPath (sampleEnv []).encode (lit "/op/v0/plant/list") [],
        body := none,
        header := (sampleClient.buildHeaders (lit "/op/v0/plant/list") (sampleEnv []).now).foldl
          (fun (h : Header) kv => h.Set kv.1 kv.2) [] } rfl).1⟩

/-- Two different 64-byte texts, taken as paths, give the same signature with
the same token and timestamp. -/
theorem buildSignature_path_collision :
    collisionPathA ≠ collisionPathB
    ∧ buildSignature (lit "tok") collisionPathA 1700000000000
        = buildSignature (lit "tok") collisionPathB 1700000000000 :=
  ⟨by decide, buildSignature_collision _ _⟩

/-- The signature is a function of its three inputs; changing exactly one of
them changes the signed text; two signatures are equal exactly when the MD5
digests of their signed texts are equal; and the signatures for the
timestamps 1700000000000 and 1700000000001 with path /op/v0/plant/list and
token tok differ. -/
theorem buildSignature_single_change (token path : GoString) (ts : Int) :
    (∀ token1 path1 ts1, token1 = token → path1 = path → ts1 = ts →
        buildSignature token1 path1 ts1 = buildSignature token path ts)
    ∧ (∀ path1, path1 ≠ path → signedMessage path1 token ts ≠ signedMessage path token ts)
    ∧ (∀ token1, token1 ≠ token → signedMessage path token1 ts ≠ signedMessage path token ts)
    ∧ (∀ ts1, ts1 ≠ ts → signedMessage path token ts1 ≠ signedMessage path token ts)
    ∧ (∀ token1 path1 ts1,
        buildSignature token1 path1 ts1 = buildSignature token path ts
          ↔ md5Sum (signedMessage path1 token1 ts1) = md5Sum (signedMessage path token ts))
    ∧ buildSignature (lit "tok") (lit "/op/v0/plant/list") 1700000000001
        ≠ buildSignature (lit "tok") (lit "/op/v0/plant/list") 1700000000000 := by
  refine ⟨?_, ?_, ?_, ?_, ?_, adjacent_sample⟩
  · rintro _ _ _ rfl rfl rfl; rfl
  · intro path1 hne h
    apply hne
    simp only [signedMessage, List.append_assoc] at h
    exact List.append_cancel_right h
  · intro token1 hne h
    apply hne
    simp only [signedMessage, List.append_assoc] at h
    exact List.append_cancel_right (List.append_cancel_left (List.append_cancel_left h))
  · intro ts1 hne h
    apply hne
    simp only [signedMessage, List.append_assoc] at h
    exact FormatInt_injective _ _ (List.append_cancel_left (List.append_cancel_left
      (List.append_cancel_left (List.append_cancel_left h))))
  · intro token1 path1 ts1
    rw [buildSignature_eq, buildSignature_eq, hashMD5, hashMD5]
    exact ⟨hexEncode_injective _ _, fun h => by rw [h]⟩

/-- The signed texts of two of the endpoint paths differ. -/
theorem signedMessage_paths_differ :
    signedMessage (lit "/op/v0/device/list") (lit "tok") 5
      ≠ signedMessage (lit "/op/v0/plant/list") (lit "tok") 5 :=
  (buildSignature_single_change (lit "tok") (lit "/op/v0/plant/list") 5).2.1 (lit "/op/v0/device/list") (by decide)

/-- C6 amended: decoding the quoted empty string never fails and leaves
`Value` as it was; decoding a quoted text stores what `strconv.ParseFloat`
returns for the text between the quotes when it returns no error (so 12.5 for
12.5 and -3 for -3), and returns its error with `Value` unchanged otherwise
(so for abc). -/
theorem dataFloat_unmarshal (parseFloat : GoString → Float64 × Option GoError) (f : DataFloat) :
    DataFloat.UnmarshalJSON parseFloat f (lit "\"\"") = (f, none)
    ∧ (∀ (s : GoString) (v : Float64), s ≠ [] → s.head? ≠ some asciiQuote →
        s.getLast? ≠ some asciiQuote → parseFloat s = (v, none) →
        DataFloat.UnmarshalJSON parseFloat f (asciiQuote :: s ++ [asciiQuote])
          = ({ Value := v }, none))
    ∧ (∀ (s : GoString) (v : Float64) (err : GoError), s ≠ [] → s.head? ≠ some asciiQuote →
        s.getLast? ≠ some asciiQuote → parseFloat s = (v, some err) →
        DataFloat.UnmarshalJSON parseFloat f (asciiQuote :: s ++ [asciiQuote]) = (f, some err))
    ∧ (∀ v : Float64, parseFloat (lit "12.5") = (v, none) →
        DataFloat.UnmarshalJSON parseFloat f (lit "\"12.5\"") = ({ Value := v }, none))
    ∧ (∀ v : Float64, parseFloat (lit "-3") = (v, none) →
        DataFloat.UnmarshalJSON parseFloat f (lit "\"-3\"") = ({ Value := v }, none))
    ∧ (∀ (v : Float64) (err : GoError), parseFloat (lit "abc") = (v, some err) →
        DataFloat.UnmarshalJSON parseFloat f (lit "\"abc\"") = (f, some err)) := by
  have gen_ok : ∀ (s : GoString) (v : Float64), s ≠ [] → s.head? ≠ some asciiQuote →
      s.getLast? ≠ some asciiQuote → parseFloat s = (v, none) →
      DataFloat.UnmarshalJSON parseFloat f (asciiQuote :: s ++ [asciiQuote])
        = ({ Value := v }, none) := by
    intro s v hne hh hl hp
    simp only [DataFloat.UnmarshalJSON, stringsTrim_quoted s asciiQuote hne hh hl, if_neg hne, hp]
  have gen_err : ∀ (s : GoString) (v : Float64) (err : GoError), s ≠ [] →
      s.head? ≠ some asciiQuote → s.getLast? ≠ some asciiQuote → parseFloat s = (v, some err) →
      DataFloat.UnmarshalJSON parseFloat f (asciiQuote :: s ++ [asciiQuote]) = (f, some err) := by
    intro s v err hne hh hl hp
    simp only [DataFloat.UnmarshalJSON, stringsTrim_quoted s asciiQuote hne hh hl, if_neg hne, hp]
  refine ⟨?_, gen_ok, gen_err, ?_, ?_, ?_⟩
  · have : stringsTrim (lit "\"\"") asciiQuote = [] := by decide
    simp [DataFloat.UnmarshalJSON, this]
  · intro v hp
    have := gen_ok (lit "12.5") v (by decide) (by decide) (by decide) hp
    exact this
  · intro v hp
    exact gen_ok (lit "-3") v (by decide) (by decide) (by decide) hp
  · intro v err hp
    exact gen_err (lit "abc") v err (by decide) (by decide) (by decide) hp

/-- C6 amended, with the reference parser: 12.5 and -3 are stored, abc leaves
the receiver as it was. -/
theorem dataFloat_unmarshal_witness :
    DataFloat.UnmarshalJSON sampleParseFloat { Value := Float64.zero } (lit "\"12.5\"")
        = ({ Value := { bits := 0x4029000000000000 } }, none)
    ∧ DataFloat.UnmarshalJSON sampleParseFloat { Value := Float64.zero } (lit "\"-3\"")
        = ({ Value := { bits := 0xC008000000000000 } }, none)
    ∧ (DataFloat.UnmarshalJSON sampleParseFloat { Value := { bits := 0x4029000000000000 } }
        (lit "\"abc\"")).1 = { Value := { bits := 0x4029000000000000 } } :=
  ⟨(dataFloat_unmarshal sampleParseFloat { Value := Float64.zero }).2.2.2.1 _ (by decide),
   (dataFloat_unmarshal sampleParseFloat { Value := Float64.zero }).2.2.2.2.1 _ (by decide),
   congrArg Prod.fst ((dataFloat_unmarshal sampleParseFloat { Value := { bits := 0x4029000000000000 } }).2.2.2.2.2
     Float64.zero (.foreign (lit "strconv.ParseFloat: parsing \"abc\": invalid syntax"))
     (by decide))⟩

/-- C6 fails for a receiver that holds 12.5: decoding the quoted empty string
returns no error and leaves 12.5 in place. -/
theorem dataFloat_empty_keeps_value :
    DataFloat.UnmarshalJSON sampleParseFloat { Value := { bits := 0x4029000000000000 } }
        (lit "\"\"") = ({ Value := { bits := 0x4029000000000000 } }, none)
    ∧ ({ bits := 0x4029000000000000 } : Float64) ≠ Float64.zero := by
  decide

/-- C8 fails for an instant whose millisecond count exceeds int64: for
t = 9223372036854776 s after the epoch the output is -9223372036854775616,
which does not parse back to the millisecond count 9223372036854776000. -/
theorem marshal_far_future_wraps :
    (QueryTimestamp.MarshalJSON { Time := { sec := 9223372036854776, nsec := 0 } }).1
        = lit "-9223372036854775616"
    ∧ Time.epochMillis { sec := 9223372036854776, nsec := 0 } = 9223372036854776000
    ∧ parseDecimal (QueryTimestamp.MarshalJSON
          { Time := { sec := 9223372036854776, nsec := 0 } }).1
        ≠ some (Time.epochMillis { sec := 9223372036854776, nsec := 0 }) := by
  decide

/-- C8 amended: for every instant `MarshalJSON` never fails and emits a JSON
integer literal, an optional minus sign followed by digits without a leading
zero, which is the decimal text of the int64 that `UnixMilli` returns; when
the epoch millisecond count of the instant fits in int64 the output is exactly
the decimal text of that count, with a minus sign exactly for negative counts,
and parses back to the count; two instants with the same millisecond count
encode identically. -/
theorem queryTimestamp_marshal (t : QueryTimestamp) :
    t.MarshalJSON.2 = none
    ∧ isJSONInteger t.MarshalJSON.1 = true
    ∧ (∃ ds : GoString, ds ≠ [] ∧ (∀ d ∈ ds, isDigitByte d = true)
        ∧ t.MarshalJSON.1 = if t.Time.UnixMilli < 0 then asciiMinus :: ds else ds)
    ∧ parseDecimal t.MarshalJSON.1 = some t.Time.UnixMilli
    ∧ (-9223372036854775808 ≤ t.Time.epochMillis → t.Time.epochMillis < 9223372036854775808 →
        t.MarshalJSON.1 = FormatInt t.Time.epochMillis
        ∧ parseDecimal t.MarshalJSON.1 = some t.Time.epochMillis
        ∧ (∃ ds : GoString, ds ≠ [] ∧ (∀ d ∈ ds, isDigitByte d = true)
            ∧ t.MarshalJSON.1 = if t.Time.epochMillis < 0 then asciiMinus :: ds else ds))
    ∧ (∀ ch ∈ t.MarshalJSON.1, ch = asciiMinus ∨ isDigitByte ch = true)
    ∧ (∀ t1 : QueryTimestamp, t1.Time.epochMillis = t.Time.epochMillis →
        t1.MarshalJSON = t.MarshalJSON) := by
  refine ⟨rfl, isJSONInteger_FormatInt _, FormatInt_shape _, parseDecimal_FormatInt _,
    ?_, ?_, ?_⟩
  · intro h1 h2
    have hm : t.Time.UnixMilli = t.Time.epochMillis := by
      rw [epochMillis_eq] at h1 h2 ⊢
      exact wrapInt64_of_range _ h1 h2
    have hout : t.MarshalJSON.1 = FormatInt t.Time.epochMillis := by
      simp only [QueryTimestamp.MarshalJSON, hm]
    rw [hout]
    exact ⟨rfl, parseDecimal_FormatInt _, FormatInt_shape _⟩
  · intro ch hch
    simp only [QueryTimestamp.MarshalJSON] at hch
    obtain ⟨ds, _, hds, hf⟩ := FormatInt_shape t.Time.UnixMilli
    rw [hf] at hch
    split_ifs at hch
    · rcases List.mem_cons.mp hch with h | h
      · exact Or.inl h
      · exact Or.inr (hds _ h)
    · exact Or.inr (hds _ hch)
  · intro t1 h
    simp only [QueryTimestamp.MarshalJSON, Time.UnixMilli]
    rw [← epochMillis_eq, ← epochMillis_eq, h]

/-- C8 amended, one millisecond before the epoch: the output is the number
literal -1. -/
theorem queryTimestamp_marshal_witness :
    (QueryTimestamp.MarshalJSON { Time := { sec := -1, nsec := 999000000 } }).1 = lit "-1"
    ∧ parseDecimal (QueryTimestamp.MarshalJSON { Time := { sec := -1, nsec := 999000000 } }).1
        = some (-1) :=
  ⟨((queryTimestamp_marshal { Time := { sec := -1, nsec := 999000000 } }).2.2.2.2.1
      (by decide) (by decide)).1.trans (by decide),
   ((queryTimestamp_marshal { Time := { sec := -1, nsec := 999000000 } }).2.2.2.2.1
      (by decide) (by decide)).2.1.trans (by decide)⟩

/-- C7: the quoted text 2024-01-15 12:00:00 GMT+0000 has the stated form, and
the code returns the parse error for it and leaves the receiver as it was,
whatever the receiver held; the same date and time with UTC+0000 decodes to
2024-01-15T12:00:00Z and with GMT+0100, BST+0100 or CET+0100 to
2024-01-15T11:00:00Z. -/
theorem dataTimestamp_gmt_zero_rejected (parseError : GoString → GoError) (t : DataTimestamp) :
    serverTimeText 2024 1 15 12 0 0 (lit "GMT") false 0 0 = lit "2024-01-15 12:00:00 GMT+0000"
    ∧ DataTimestamp.UnmarshalJSON parseError t (lit "\"2024-01-15 12:00:00 GMT+0000\"")
        = (t, some (parseError (lit "2024-01-15 12:00:00 GMT+0000")))
    ∧ DataTimestamp.UnmarshalJSON parseError t (lit "\"2024-01-15 12:00:00 UTC+0000\"")
        = ({ Time := { sec := 1705320000, nsec := 0 } }, none)
    ∧ DataTimestamp.UnmarshalJSON parseError t (lit "\"2024-01-15 12:00:00 GMT+0100\"")
        = ({ Time := { sec := 1705316400, nsec := 0 } }, none)
    ∧ DataTimestamp.UnmarshalJSON parseError t (lit "\"2024-01-15 12:00:00 BST+0100\"")
        = ({ Time := { sec := 1705316400, nsec := 0 } }, none)
    ∧ DataTimestamp.UnmarshalJSON parseError t (lit "\"2024-01-15 12:00:00 CET+0100\"")
        = ({ Time := { sec := 1705316400, nsec := 0 } }, none) := by
  have h0 : parseServerTime (lit "2024-01-15 12:00:00 GMT+0000") = none := by decide
  have h1 : parseServerTime (stringsTrim (lit "\"2024-01-15 12:00:00 UTC+0000\"") asciiQuote)
      = some { sec := 1705320000, nsec := 0 } := by decide
  have h2 : parseServerTime (stringsTrim (lit "\"2024-01-15 12:00:00 GMT+0100\"") asciiQuote)
      = some { sec := 1705316400, nsec := 0 } := by decide
  have h3 : parseServerTime (stringsTrim (lit "\"2024-01-15 12:00:00 BST+0100\"") asciiQuote)
      = some { sec := 1705316400, nsec := 0 } := by decide
  have h4 : parseServerTime (stringsTrim (lit "\"2024-01-15 12:00:00 CET+0100\"") asciiQuote)
      = some { sec := 1705316400, nsec := 0 } := by decide
  have ht : stringsTrim (lit "\"2024-01-15 12:00:00 GMT+0000\"") asciiQuote
      = lit "2024-01-15 12:00:00 GMT+0000" := by decide
  refine ⟨by decide, ?_, ?_, ?_, ?_, ?_⟩
  · simp only [DataTimestamp.UnmarshalJSON, timeParse, ht, h0]
  · simp only [DataTimestamp.UnmarshalJSON, timeParse, h1]
  · simp only [DataTimestamp.UnmarshalJSON, timeParse, h2]
  · simp only [DataTimestamp.UnmarshalJSON, timeParse, h3]
  · simp only [DataTimestamp.UnmarshalJSON, timeParse, h4]

/-- What the decoder accepts beyond and short of the stated form: a text with
a one-digit hour is accepted; a text with the date February 30 is rejected;
with the abbreviation UTC the offset +0100 is not applied. -/
theorem dataTimestamp_lenient (parseError : GoString → GoError) :
    DataTimestamp.UnmarshalJSON parseError { Time := { sec := 0, nsec := 0 } }
        (lit "\"2024-03-01 9:00:00 UTC+0000\"")
      = ({ Time := { sec := 1709283600, nsec := 0 } }, none)
    ∧ DataTimestamp.UnmarshalJSON parseError { Time := { sec := 0, nsec := 0 } }
        (lit "\"2024-02-30 10:00:00 CET+0100\"")
      = ({ Time := { sec := 0, nsec := 0 } },
          some (parseError (lit "2024-02-30 10:00:00 CET+0100")))
    ∧ DataTimestamp.UnmarshalJSON parseError { Time := { sec := 0, nsec := 0 } }
        (lit "\"2024-03-01 10:00:00 UTC+0100\"")
      = ({ Time := { sec := 1709287200, nsec := 0 } }, none) := by
  have h0 : parseServerTime (stringsTrim (lit "\"2024-03-01 9:00:00 UTC+0000\"") asciiQuote)
      = some { sec := 1709283600, nsec := 0 } := by decide
  have h1 : parseServerTime (lit "2024-02-30 10:00:00 CET+0100") = none := by decide
  have h2 : parseServerTime (stringsTrim (lit "\"2024-03-01 10:00:00 UTC+0100\"") asciiQuote)
      = some { sec := 1709287200, nsec := 0 } := by decide
  have ht : stringsTrim (lit "\"2024-02-30 10:00:00 CET+0100\"") asciiQuote
      = lit "2024-02-30 10:00:00 CET+0100" := by decide
  refine ⟨?_, ?_, ?_⟩
  · simp only [DataTimestamp.UnmarshalJSON, timeParse, h0]
  · simp only [DataTimestamp.UnmarshalJSON, timeParse, ht, h1]
  · simp only [DataTimestamp.UnmarshalJSON, timeParse, h2]

/-- The texts that are decoded as the stated form says: for every valid
calendar date and time of day, zone abbreviation of three capital letters (or
four or five ending in T) that does not start with GMT or UTC, and offset
below 24 hours and 60 minutes, the quoted text decodes to the instant of that
date and time at that offset; whenever the parse fails the error is returned
and the receiver is unchanged. -/
theorem dataTimestamp_accepts (parseError : GoString → GoError) (t : DataTimestamp) :
    (∀ (year month day hour min sec : Nat) (zone : GoString) (west : Bool)
        (offHour offMin : Nat),
        year < 10000 → 1 ≤ month → month ≤ 12 → 1 ≤ day → day ≤ daysIn month year →
        hour < 24 → min < 60 → sec < 60 → isPlainZone zone = true →
        offHour < 24 → offMin < 60 →
        DataTimestamp.UnmarshalJSON parseError t (asciiQuote ::
            serverTimeText year month day hour min sec zone west offHour offMin ++ [asciiQuote])
          = ({ Time := instantAtOffset year month day hour min sec west offHour offMin }, none))
    ∧ (∀ (year month day hour min sec : Nat) (west : Bool),
        year < 10000 → 1 ≤ month → month ≤ 12 → 1 ≤ day → day ≤ daysIn month year →
        hour < 24 → min < 60 → sec < 60 →
        DataTimestamp.UnmarshalJSON parseError t (asciiQuote ::
            serverTimeText year month day hour min sec (lit "UTC") west 0 0 ++ [asciiQuote])
          = ({ Time := dateUTC year month day hour min sec 0 }, none))
    ∧ (∀ b : GoString, parseServerTime (stringsTrim b asciiQuote) = none →
        DataTimestamp.UnmarshalJSON parseError t b
          = (t, some (parseError (stringsTrim b asciiQuote))))
    ∧ (∀ (b : GoString) (d : Time), parseServerTime (stringsTrim b asciiQuote) = some d →
        DataTimestamp.UnmarshalJSON parseError t b = ({ Time := d }, none)) := by
  have hfail : ∀ b : GoString, parseServerTime (stringsTrim b asciiQuote) = none →
      DataTimestamp.UnmarshalJSON parseError t b
        = (t, some (parseError (stringsTrim b asciiQuote))) := by
    intro b h
    simp only [DataTimestamp.UnmarshalJSON, timeParse, h]
  have hok : ∀ (b : GoString) (d : Time), parseServerTime (stringsTrim b asciiQuote) = some d →
      DataTimestamp.UnmarshalJSON parseError t b = ({ Time := d }, none) := by
    intro b d h
    simp only [DataTimestamp.UnmarshalJSON, timeParse, h]
  refine ⟨?_, ?_, hfail, hok⟩
  · intro year month day hour min sec zone west offHour offMin hy hm1 hm2 hd1 hd2 hh hmi hs hz
      hoh hom
    apply hok
    rw [serverTimeText_trim _ _ _ _ _ _ _ _ _ _ hy]
    exact parseServerTime_text year month day hour min sec zone west offHour offMin hy hm1 hm2
      hd1 hd2 hh hmi hs hz (by omega) (by omega)
  · intro year month day hour min sec west hy hm1 hm2 hd1 hd2 hh hmi hs
    apply hok
    rw [serverTimeText_trim _ _ _ _ _ _ _ _ _ _ hy]
    exact parseServerTime_utc year month day hour min sec west 0 0 hy hm1 hm2 hd1 hd2 hh hmi hs
      (by omega) (by omega)

/-- C9: the paginated unwrap returns the decoded data, currentPage, pageSize
and total as they are, and the bare-list unwrap returns the decoded result as
it is; for one item named A with currentPage 1, pageSize 10 and total 1 the
list call returns one item, CurrentPage 1, Pagesize 10, Total 1. -/
theorem unwrap_verbatim {T : Type} (l : wrappedListResponse T) (d : wrappedDataListResponse T) :
    l.unwrap.Items = l.Result.Data
    ∧ l.unwrap.Items.length = l.Result.Data.length
    ∧ l.unwrap.CurrentPage = l.Result.CurrentPage
    ∧ l.unwrap.Pagesize = l.Result.Pagesize
    ∧ l.unwrap.Total = l.Result.Total
    ∧ d.unwrap.Items = d.Result
    ∧ PowerStationService.List sampleClient (sampleEnv listBody) sampleListJSON (.ok [])
        = (some { Items := [{ Name := lit "A", IanaTimezone := [], StationID := [] }],
                  CurrentPage := 1, Pagesize := 10, Total := 1 }, none) := by
  refine ⟨rfl, rfl, rfl, rfl, rfl, rfl, ?_⟩
  decide

/-- C10: the detail unwrap is the decoded `Result` itself; when the envelope
has errno 0 and the payload decodes to a wrapper `w`, `Inverters.Get` and
`PowerStations.Get` return `w.Result` and no error, be it a record or nil. -/
theorem detail_unwrap (c : Client) (env : Env) :
    (∀ (T : Type) (w : wrappedDetailResponse T), w.unwrap = w.Result)
    ∧ (∀ (json : JSON (wrappedDetailResponse InverterDetail)) (opts : GetInverterOptions)
        (req : Request) (resp : Response) (data : GoString) (errResp : errorResponse)
        (w : wrappedDetailResponse InverterDetail),
        c.newGetRequest env (lit "/op/v0/device/detail") [(lit "sn", [opts.InverterSN])] = .ok req →
        env.roundTrip req = .body resp data →
        json.unmarshalEnvelope data { ErrNo := 0, Msg := [] } = (errResp, none) →
        errResp.ErrNo = 0 →
        json.unmarshal data { Result := none } = (w, none) →
        InverterService.Get c env json opts = (w.Result, none))
    ∧ (∀ (json : JSON (wrappedDetailResponse PowerStationDetail)) (opts : GetPowerStationOptions)
        (req : Request) (resp : Response) (data : GoString) (errResp : errorResponse)
        (w : wrappedDetailResponse PowerStationDetail),
        c.newGetRequest env (lit "/op/v0/plant/detail") [(lit "id", [opts.StationID])] = .ok req →
        env.roundTrip req = .body resp data →
        json.unmarshalEnvelope data { ErrNo := 0, Msg := [] } = (errResp, none) →
        errResp.ErrNo = 0 →
        json.unmarshal data { Result := none } = (w, none) →
        PowerStationService.Get c env json opts = (w.Result, none)) := by
  refine ⟨fun _ _ => rfl, ?_, ?_⟩
  · intro json opts req resp data errResp w hreq hrt henv h0 hu
    simp [InverterService.Get, hreq, hrt, Client.do_, henv, h0, hu, errNoNoError,
      wrappedDetailResponse.unwrap]
  · intro json opts req resp data errResp w hreq hrt henv h0 hu
    simp [PowerStationService.Get, hreq, hrt, Client.do_, henv, h0, hu, errNoNoError,
      wrappedDetailResponse.unwrap]

/-- C10, at the sample bodies: with result holding stationID S1 the record
with StationID S1 is returned; without a result, no error and no record. -/
theorem detail_unwrap_witness :
    InverterService.Get sampleClient (sampleEnv detailBody) sampleDetailJSON { InverterSN := lit "SN1" }
        = (some { InverterDetail.zero with StationID := lit "S1" }, none)
    ∧ InverterService.Get sampleClient (sampleEnv emptyDetailBody) sampleDetailJSON
        { InverterSN := lit "SN1" } = (none, none) :=
  ⟨(detail_unwrap sampleClient (sampleEnv detailBody)).2.1 sampleDetailJSON { InverterSN := lit "SN1" }
      _ { StatusCode := 200 } detailBody { ErrNo := 0, Msg := [] }
      { Result := some { InverterDetail.zero with StationID := lit "S1" } }
      rfl rfl (by decide) rfl (by decide),
   (detail_unwrap sampleClient (sampleEnv emptyDetailBody)).2.1 sampleDetailJSON { InverterSN := lit "SN1" }
      _ { StatusCode := 200 } emptyDetailBody { ErrNo := 0, Msg := [] }
      { Result := none }
      rfl rfl (by decide) rfl (by decide)⟩

end Foxess
